import Mathlib

/-!
# GPIO pin operations of the atsamd51g19 machine layer

A shallow embedding of `src/machine/machine_atsamd51g19.go`: the ten single-bit
port registers, the packed multiplexer (`PMUX`) and configuration (`PINCFG`)
register files, and the methods `PortMaskSet`, `PortMaskClear`, `Set`, `Get`,
`Configure`, `getPMux`, `setPMux`, `getPinCfg` and `setPinCfg` of `Pin`.

Registers are stored values: a `Set` stores its argument, a `Get` returns the
stored value, and every access is appended to a log, in program order.
Machine integers are natural numbers with the wrap-around written out.
-/

namespace Machine

/-- A pin index. `Pin` is declared outside this file as an 8-bit integer type;
the mathematical value of the index is kept, and the conversion `uint8(p)` is
reduction modulo 256 (see `Pin.uint8`). -/
abbrev Pin := Int

/-- The registers of `sam.PORT` that the file touches. `PMUX0 5` stands for the
field `PMUX0_5`, `PINCFG1 28` for `PINCFG1_28`, and so on. The `PMUX0` and
`PINCFG0` registers are 8 bits wide, all the others 32 bits. -/
inductive Reg where
  | OUTSET0 | OUTSET1 | OUTCLR0 | OUTCLR1
  | DIRSET0 | DIRSET1 | DIRCLR0 | DIRCLR1
  | IN0 | IN1
  | PMUX0 (i : Nat)
  | PMUX1 (i : Nat)
  | PINCFG0 (i : Nat)
  | PINCFG1 (i : Nat)
  deriving DecidableEq, Repr

/-- One register access. -/
inductive Access where
  | read (r : Reg)
  | write (r : Reg) (v : Nat)
  deriving DecidableEq, Repr

/-- The register bank: the stored value of every register and the log of the
accesses made so far (oldest first). -/
structure Port where
  regs : Reg → Nat
  log : List Access

/-- The register method `Get()`: returns the stored value and logs the read. -/
def Reg.Get (r : Reg) (s : Port) : Nat × Port :=
  (s.regs r, { s with log := s.log ++ [Access.read r] })

/-- The register method `Set(v)`: stores `v` and logs the write. -/
def Reg.Set (r : Reg) (v : Nat) (s : Port) : Port :=
  { regs := Function.update s.regs r v, log := s.log ++ [Access.write r v] }

/-- The conversion `uint8(p)` of a pin index. -/
def Pin.uint8 (p : Pin) : Nat := (p % 256).toNat

/-- The conversion `uint8(x)` of an unsigned value. -/
def uint8 (x : Nat) : Nat := x % 2 ^ 8

/-- The conversion `uint32(x)` of an unsigned value. -/
def uint32 (x : Nat) : Nat := x % 2 ^ 32

/-- The shift `a << n` on `uint32`. -/
def shl32 (a n : Nat) : Nat := (a <<< n) % 2 ^ 32

/-- The shift `a << n` on `uint8`. -/
def shl8 (a n : Nat) : Nat := (a <<< n) % 2 ^ 8

/-- The subtraction `a - b` on `uint32`. -/
def sub32 (a b : Nat) : Nat := (a % 2 ^ 32 + (2 ^ 32 - b % 2 ^ 32)) % 2 ^ 32

/-- The subtraction `a - b` on `uint8`. -/
def sub8 (a b : Nat) : Nat := (a % 2 ^ 8 + (2 ^ 8 - b % 2 ^ 8)) % 2 ^ 8

/-- The bit clear operator `a &^ b` (and-not): the bits of `a` that are not set
in `b`. -/
def andNot (a b : Nat) : Nat := a ^^^ (a &&& b)

/-- The modes `Configure` switches on. The constants are declared outside this
file; the eight that have a case are listed by name, and `other n` is any
further mode value. -/
inductive PinMode where
  | PinOutput | PinInput | PinInputPulldown | PinInputPullup
  | PinSERCOM | PinSERCOMAlt | PinCom | PinAnalog
  | other (n : Nat)
  deriving DecidableEq, Repr

/-- The constants the file uses whose values are declared elsewhere: the numeric
values of the four peripheral modes (as `uint8(PinSERCOM)` and so on) and the
flag bits of a configuration byte from `device/sam`. -/
structure Consts where
  PinSERCOM : Nat
  PinSERCOMAlt : Nat
  PinCom : Nat
  PinAnalog : Nat
  PORT_PINCFG0_PMUXEN : Nat
  PORT_PINCFG0_INEN : Nat
  PORT_PINCFG0_PULLEN : Nat
  PORT_PINCFG0_DRVSTR : Nat

/-- The flag constants are values of type `uint8`. -/
def Consts.IsByte (c : Consts) : Prop :=
  c.PORT_PINCFG0_PMUXEN < 256 ∧ c.PORT_PINCFG0_INEN < 256 ∧
  c.PORT_PINCFG0_PULLEN < 256 ∧ c.PORT_PINCFG0_DRVSTR < 256

instance (c : Consts) : Decidable c.IsByte := by
  unfold Consts.IsByte; infer_instance

/-- Modelled from the spec: `device/sam` is not part of the sources; the even
pin of a pair owns the low nibble of the multiplexer byte, at bit 0. -/
def PORT_PMUX0_PMUXE_Pos : Nat := 0

/-- Modelled from the spec: `device/sam` is not part of the sources; mask of the
low nibble, the 4-bit selector of the even pin. -/
def PORT_PMUX0_PMUXE_Msk : Nat := 0xf

/-- Modelled from the spec: `device/sam` is not part of the sources; the odd pin
of a pair owns the high nibble of the multiplexer byte, at bit 4. -/
def PORT_PMUX0_PMUXO_Pos : Nat := 4

/-- Modelled from the spec: `device/sam` is not part of the sources; mask of the
high nibble, the 4-bit selector of the odd pin. -/
def PORT_PMUX0_PMUXO_Msk : Nat := 0xf0

/-- Source: `func (p Pin) PortMaskSet() (*uint32, uint32)`. -/
def Pin.PortMaskSet (p : Pin) : Reg × Nat :=
  if p < 32 then
    (Reg.OUTSET0, shl32 1 (Pin.uint8 p))
  else
    (Reg.OUTSET1, shl32 1 (Pin.uint8 (p - 32)))

/-- Source: `func (p Pin) PortMaskClear() (*uint32, uint32)`. -/
def Pin.PortMaskClear (p : Pin) : Reg × Nat :=
  if p < 32 then
    (Reg.OUTCLR0, shl32 1 (Pin.uint8 p))
  else
    (Reg.OUTCLR1, shl32 1 (Pin.uint8 (p - 32)))

/-- Source: `func (p Pin) Set(high bool)`. -/
def Pin.Set (p : Pin) (high : Bool) (s : Port) : Port :=
  if p < 32 then
    if high then
      Reg.Set .OUTSET0 (shl32 1 (Pin.uint8 p)) s
    else
      Reg.Set .OUTCLR0 (shl32 1 (Pin.uint8 p)) s
  else
    if high then
      Reg.Set .OUTSET1 (shl32 1 (Pin.uint8 (p - 32))) s
    else
      Reg.Set .OUTCLR1 (shl32 1 (Pin.uint8 (p - 32))) s

/-- Source: `func (p Pin) Get() bool`. -/
def Pin.Get (p : Pin) (s : Port) : Bool × Port :=
  if p < 32 then
    let g := Reg.Get .IN0 s
    (decide ((g.1 >>> Pin.uint8 p) &&& 1 > 0), g.2)
  else
    let g := Reg.Get .IN1 s
    (decide ((g.1 >>> sub8 (Pin.uint8 p) 32) &&& 1 > 0), g.2)

/-- Source: `func (p Pin) getPMux() uint8`, a switch on `uint8(p) >> 1`. -/
def Pin.getPMux (p : Pin) (s : Port) : Nat × Port :=
  match Pin.uint8 p >>> 1 with
  | 0 => Reg.Get (.PMUX0 0) s
  | 1 => Reg.Get (.PMUX0 1) s
  | 2 => Reg.Get (.PMUX0 2) s
  | 3 => Reg.Get (.PMUX0 3) s
  | 4 => Reg.Get (.PMUX0 4) s
  | 5 => Reg.Get (.PMUX0 5) s
  | 6 => Reg.Get (.PMUX0 6) s
  | 7 => Reg.Get (.PMUX0 7) s
  | 8 => Reg.Get (.PMUX0 8) s
  | 9 => Reg.Get (.PMUX0 9) s
  | 10 => Reg.Get (.PMUX0 10) s
  | 11 => Reg.Get (.PMUX0 11) s
  | 12 => Reg.Get (.PMUX0 12) s
  | 13 => Reg.Get (.PMUX0 13) s
  | 14 => Reg.Get (.PMUX0 14) s
  | 15 => Reg.Get (.PMUX0 15) s
  | 16 => let g := Reg.Get (.PMUX1 0) s; (uint8 (g.1 >>> 0) &&& 0xff, g.2)
  | 17 => let g := Reg.Get (.PMUX1 0) s; (uint8 (g.1 >>> 8) &&& 0xff, g.2)
  | 18 => let g := Reg.Get (.PMUX1 0) s; (uint8 (g.1 >>> 16) &&& 0xff, g.2)
  | 19 => let g := Reg.Get (.PMUX1 0) s; (uint8 (g.1 >>> 24) &&& 0xff, g.2)
  | 20 => let g := Reg.Get (.PMUX1 4) s; (uint8 (g.1 >>> 0) &&& 0xff, g.2)
  | 21 => let g := Reg.Get (.PMUX1 4) s; (uint8 (g.1 >>> 8) &&& 0xff, g.2)
  | 22 => let g := Reg.Get (.PMUX1 4) s; (uint8 (g.1 >>> 16) &&& 0xff, g.2)
  | 23 => let g := Reg.Get (.PMUX1 4) s; (uint8 (g.1 >>> 24) &&& 0xff, g.2)
  | 24 => let g := Reg.Get (.PMUX1 8) s; (uint8 (g.1 >>> 0) &&& 0xff, g.2)
  | 25 => let g := Reg.Get (.PMUX1 8) s; (uint8 (g.1 >>> 8) &&& 0xff, g.2)
  | 26 => let g := Reg.Get (.PMUX1 8) s; (uint8 (g.1 >>> 16) &&& 0xff, g.2)
  | 27 => let g := Reg.Get (.PMUX1 8) s; (uint8 (g.1 >>> 24) &&& 0xff, g.2)
  | 28 => let g := Reg.Get (.PMUX1 12) s; (uint8 (g.1 >>> 0) &&& 0xff, g.2)
  | 29 => let g := Reg.Get (.PMUX1 12) s; (uint8 (g.1 >>> 8) &&& 0xff, g.2)
  | 30 => let g := Reg.Get (.PMUX1 12) s; (uint8 (g.1 >>> 16) &&& 0xff, g.2)
  | 31 => let g := Reg.Get (.PMUX1 12) s; (uint8 (g.1 >>> 24) &&& 0xff, g.2)
  | _ => (0, s)

/-- Source: `func (p Pin) setPMux(val uint8)`, a switch on `uint8(p) >> 1`. -/
def Pin.setPMux (p : Pin) (val : Nat) (s : Port) : Port :=
  match Pin.uint8 p >>> 1 with
  | 0 => Reg.Set (.PMUX0 0) val s
  | 1 => Reg.Set (.PMUX0 1) val s
  | 2 => Reg.Set (.PMUX0 2) val s
  | 3 => Reg.Set (.PMUX0 3) val s
  | 4 => Reg.Set (.PMUX0 4) val s
  | 5 => Reg.Set (.PMUX0 5) val s
  | 6 => Reg.Set (.PMUX0 6) val s
  | 7 => Reg.Set (.PMUX0 7) val s
  | 8 => Reg.Set (.PMUX0 8) val s
  | 9 => Reg.Set (.PMUX0 9) val s
  | 10 => Reg.Set (.PMUX0 10) val s
  | 11 => Reg.Set (.PMUX0 11) val s
  | 12 => Reg.Set (.PMUX0 12) val s
  | 13 => Reg.Set (.PMUX0 13) val s
  | 14 => Reg.Set (.PMUX0 14) val s
  | 15 => Reg.Set (.PMUX0 15) val s
  | 16 => let g := Reg.Get (.PMUX1 0) s; Reg.Set (.PMUX1 0) (andNot g.1 (0xff <<< 0) ||| shl32 (uint32 val) 0) g.2
  | 17 => let g := Reg.Get (.PMUX1 0) s; Reg.Set (.PMUX1 0) (andNot g.1 (0xff <<< 8) ||| shl32 (uint32 val) 8) g.2
  | 18 => let g := Reg.Get (.PMUX1 0) s; Reg.Set (.PMUX1 0) (andNot g.1 (0xff <<< 16) ||| shl32 (uint32 val) 16) g.2
  | 19 => let g := Reg.Get (.PMUX1 0) s; Reg.Set (.PMUX1 0) (andNot g.1 (0xff <<< 24) ||| shl32 (uint32 val) 24) g.2
  | 20 => let g := Reg.Get (.PMUX1 4) s; Reg.Set (.PMUX1 4) (andNot g.1 (0xff <<< 0) ||| shl32 (uint32 val) 0) g.2
  | 21 => let g := Reg.Get (.PMUX1 4) s; Reg.Set (.PMUX1 4) (andNot g.1 (0xff <<< 8) ||| shl32 (uint32 val) 8) g.2
  | 22 => let g := Reg.Get (.PMUX1 4) s; Reg.Set (.PMUX1 4) (andNot g.1 (0xff <<< 16) ||| shl32 (uint32 val) 16) g.2
  | 23 => let g := Reg.Get (.PMUX1 4) s; Reg.Set (.PMUX1 4) (andNot g.1 (0xff <<< 24) ||| shl32 (uint32 val) 24) g.2
  | 24 => let g := Reg.Get (.PMUX1 8) s; Reg.Set (.PMUX1 8) (andNot g.1 (0xff <<< 0) ||| shl32 (uint32 val) 0) g.2
  | 25 => let g := Reg.Get (.PMUX1 8) s; Reg.Set (.PMUX1 8) (andNot g.1 (0xff <<< 8) ||| shl32 (uint32 val) 8) g.2
  | 26 => let g := Reg.Get (.PMUX1 8) s; Reg.Set (.PMUX1 8) (andNot g.1 (0xff <<< 16) ||| shl32 (uint32 val) 16) g.2
  | 27 => let g := Reg.Get (.PMUX1 8) s; Reg.Set (.PMUX1 8) (andNot g.1 (0xff <<< 24) ||| shl32 (uint32 val) 24) g.2
  | 28 => let g := Reg.Get (.PMUX1 12) s; Reg.Set (.PMUX1 12) (andNot g.1 (0xff <<< 0) ||| shl32 (uint32 val) 0) g.2
  | 29 => let g := Reg.Get (.PMUX1 12) s; Reg.Set (.PMUX1 12) (andNot g.1 (0xff <<< 8) ||| shl32 (uint32 val) 8) g.2
  | 30 => let g := Reg.Get (.PMUX1 12) s; Reg.Set (.PMUX1 12) (andNot g.1 (0xff <<< 16) ||| shl32 (uint32 val) 16) g.2
  | 31 => let g := Reg.Get (.PMUX1 12) s; Reg.Set (.PMUX1 12) (andNot g.1 (0xff <<< 24) ||| shl32 (uint32 val) 24) g.2
  | _ => s

/-- Source: `func (p Pin) getPinCfg() uint8`, a switch on `p`. -/
def Pin.getPinCfg (p : Pin) (s : Port) : Nat × Port :=
  match p with
  | 0 => Reg.Get (.PINCFG0 0) s
  | 1 => Reg.Get (.PINCFG0 1) s
  | 2 => Reg.Get (.PINCFG0 2) s
  | 3 => Reg.Get (.PINCFG0 3) s
  | 4 => Reg.Get (.PINCFG0 4) s
  | 5 => Reg.Get (.PINCFG0 5) s
  | 6 => Reg.Get (.PINCFG0 6) s
  | 7 => Reg.Get (.PINCFG0 7) s
  | 8 => Reg.Get (.PINCFG0 8) s
  | 9 => Reg.Get (.PINCFG0 9) s
  | 10 => Reg.Get (.PINCFG0 10) s
  | 11 => Reg.Get (.PINCFG0 11) s
  | 12 => Reg.Get (.PINCFG0 12) s
  | 13 => Reg.Get (.PINCFG0 13) s
  | 14 => Reg.Get (.PINCFG0 14) s
  | 15 => Reg.Get (.PINCFG0 15) s
  | 16 => Reg.Get (.PINCFG0 16) s
  | 17 => Reg.Get (.PINCFG0 17) s
  | 18 => Reg.Get (.PINCFG0 18) s
  | 19 => Reg.Get (.PINCFG0 19) s
  | 20 => Reg.Get (.PINCFG0 20) s
  | 21 => Reg.Get (.PINCFG0 21) s
  | 22 => Reg.Get (.PINCFG0 22) s
  | 23 => Reg.Get (.PINCFG0 23) s
  | 24 => Reg.Get (.PINCFG0 24) s
  | 25 => Reg.Get (.PINCFG0 25) s
  | 26 => Reg.Get (.PINCFG0 26) s
  | 27 => Reg.Get (.PINCFG0 27) s
  | 28 => Reg.Get (.PINCFG0 28) s
  | 29 => Reg.Get (.PINCFG0 29) s
  | 30 => Reg.Get (.PINCFG0 30) s
  | 31 => Reg.Get (.PINCFG0 31) s
  | 32 => let g := Reg.Get (.PINCFG1 0) s; (uint8 (g.1 >>> 0) &&& 0xff, g.2)
  | 33 => let g := Reg.Get (.PINCFG1 0) s; (uint8 (g.1 >>> 8) &&& 0xff, g.2)
  | 34 => let g := Reg.Get (.PINCFG1 0) s; (uint8 (g.1 >>> 16) &&& 0xff, g.2)
  | 35 => let g := Reg.Get (.PINCFG1 0) s; (uint8 (g.1 >>> 24) &&& 0xff, g.2)
  | 37 => let g := Reg.Get (.PINCFG1 4) s; (uint8 (g.1 >>> 0) &&& 0xff, g.2)
  | 38 => let g := Reg.Get (.PINCFG1 4) s; (uint8 (g.1 >>> 8) &&& 0xff, g.2)
  | 39 => let g := Reg.Get (.PINCFG1 4) s; (uint8 (g.1 >>> 16) &&& 0xff, g.2)
  | 40 => let g := Reg.Get (.PINCFG1 4) s; (uint8 (g.1 >>> 24) &&& 0xff, g.2)
  | 41 => let g := Reg.Get (.PINCFG1 8) s; (uint8 (g.1 >>> 0) &&& 0xff, g.2)
  | 42 => let g := Reg.Get (.PINCFG1 8) s; (uint8 (g.1 >>> 8) &&& 0xff, g.2)
  | 43 => let g := Reg.Get (.PINCFG1 8) s; (uint8 (g.1 >>> 16) &&& 0xff, g.2)
  | 44 => let g := Reg.Get (.PINCFG1 8) s; (uint8 (g.1 >>> 24) &&& 0xff, g.2)
  | 45 => let g := Reg.Get (.PINCFG1 12) s; (uint8 (g.1 >>> 0) &&& 0xff, g.2)
  | 46 => let g := Reg.Get (.PINCFG1 12) s; (uint8 (g.1 >>> 8) &&& 0xff, g.2)
  | 47 => let g := Reg.Get (.PINCFG1 12) s; (uint8 (g.1 >>> 16) &&& 0xff, g.2)
  | 48 => let g := Reg.Get (.PINCFG1 12) s; (uint8 (g.1 >>> 24) &&& 0xff, g.2)
  | 49 => let g := Reg.Get (.PINCFG1 16) s; (uint8 (g.1 >>> 0) &&& 0xff, g.2)
  | 50 => let g := Reg.Get (.PINCFG1 16) s; (uint8 (g.1 >>> 8) &&& 0xff, g.2)
  | 51 => let g := Reg.Get (.PINCFG1 16) s; (uint8 (g.1 >>> 16) &&& 0xff, g.2)
  | 52 => let g := Reg.Get (.PINCFG1 16) s; (uint8 (g.1 >>> 24) &&& 0xff, g.2)
  | 53 => let g := Reg.Get (.PINCFG1 20) s; (uint8 (g.1 >>> 0) &&& 0xff, g.2)
  | 54 => let g := Reg.Get (.PINCFG1 20) s; (uint8 (g.1 >>> 8) &&& 0xff, g.2)
  | 55 => let g := Reg.Get (.PINCFG1 20) s; (uint8 (g.1 >>> 16) &&& 0xff, g.2)
  | 56 => let g := Reg.Get (.PINCFG1 20) s; (uint8 (g.1 >>> 24) &&& 0xff, g.2)
  | 57 => let g := Reg.Get (.PINCFG1 24) s; (uint8 (g.1 >>> 0) &&& 0xff, g.2)
  | 58 => let g := Reg.Get (.PINCFG1 24) s; (uint8 (g.1 >>> 8) &&& 0xff, g.2)
  | 59 => let g := Reg.Get (.PINCFG1 24) s; (uint8 (g.1 >>> 16) &&& 0xff, g.2)
  | 60 => let g := Reg.Get (.PINCFG1 24) s; (uint8 (g.1 >>> 24) &&& 0xff, g.2)
  | 61 => let g := Reg.Get (.PINCFG1 28) s; (uint8 (g.1 >>> 0) &&& 0xff, g.2)
  | 62 => let g := Reg.Get (.PINCFG1 28) s; (uint8 (g.1 >>> 8) &&& 0xff, g.2)
  | 63 => let g := Reg.Get (.PINCFG1 28) s; (uint8 (g.1 >>> 16) &&& 0xff, g.2)
  | 64 => let g := Reg.Get (.PINCFG1 28) s; (uint8 (g.1 >>> 24) &&& 0xff, g.2)
  | _ => (0, s)

/-- Source: `func (p Pin) setPinCfg(val uint8)`, a switch on `p`. -/
def Pin.setPinCfg (p : Pin) (val : Nat) (s : Port) : Port :=
  match p with
  | 0 => Reg.Set (.PINCFG0 0) val s
  | 1 => Reg.Set (.PINCFG0 1) val s
  | 2 => Reg.Set (.PINCFG0 2) val s
  | 3 => Reg.Set (.PINCFG0 3) val s
  | 4 => Reg.Set (.PINCFG0 4) val s
  | 5 => Reg.Set (.PINCFG0 5) val s
  | 6 => Reg.Set (.PINCFG0 6) val s
  | 7 => Reg.Set (.PINCFG0 7) val s
  | 8 => Reg.Set (.PINCFG0 8) val s
  | 9 => Reg.Set (.PINCFG0 9) val s
  | 10 => Reg.Set (.PINCFG0 10) val s
  | 11 => Reg.Set (.PINCFG0 11) val s
  | 12 => Reg.Set (.PINCFG0 12) val s
  | 13 => Reg.Set (.PINCFG0 13) val s
  | 14 => Reg.Set (.PINCFG0 14) val s
  | 15 => Reg.Set (.PINCFG0 15) val s
  | 16 => Reg.Set (.PINCFG0 16) val s
  | 17 => Reg.Set (.PINCFG0 17) val s
  | 18 => Reg.Set (.PINCFG0 18) val s
  | 19 => Reg.Set (.PINCFG0 19) val s
  | 20 => Reg.Set (.PINCFG0 20) val s
  | 21 => Reg.Set (.PINCFG0 21) val s
  | 22 => Reg.Set (.PINCFG0 22) val s
  | 23 => Reg.Set (.PINCFG0 23) val s
  | 24 => Reg.Set (.PINCFG0 24) val s
  | 25 => Reg.Set (.PINCFG0 25) val s
  | 26 => Reg.Set (.PINCFG0 26) val s
  | 27 => Reg.Set (.PINCFG0 27) val s
  | 28 => Reg.Set (.PINCFG0 28) val s
  | 29 => Reg.Set (.PINCFG0 29) val s
  | 30 => Reg.Set (.PINCFG0 30) val s
  | 31 => Reg.Set (.PINCFG0 31) val s
  | 32 => let g := Reg.Get (.PINCFG1 0) s; Reg.Set (.PINCFG1 0) (andNot g.1 (0xff <<< 0) ||| shl32 (uint32 val) 0) g.2
  | 33 => let g := Reg.Get (.PINCFG1 0) s; Reg.Set (.PINCFG1 0) (andNot g.1 (0xff <<< 8) ||| shl32 (uint32 val) 8) g.2
  | 34 => let g := Reg.Get (.PINCFG1 0) s; Reg.Set (.PINCFG1 0) (andNot g.1 (0xff <<< 16) ||| shl32 (uint32 val) 16) g.2
  | 35 => let g := Reg.Get (.PINCFG1 0) s; Reg.Set (.PINCFG1 0) (andNot g.1 (0xff <<< 24) ||| shl32 (uint32 val) 24) g.2
  | 36 => let g := Reg.Get (.PINCFG1 4) s; Reg.Set (.PINCFG1 4) (andNot g.1 (0xff <<< 0) ||| shl32 (uint32 val) 0) g.2
  | 37 => let g := Reg.Get (.PINCFG1 4) s; Reg.Set (.PINCFG1 4) (andNot g.1 (0xff <<< 8) ||| shl32 (uint32 val) 8) g.2
  | 38 => let g := Reg.Get (.PINCFG1 4) s; Reg.Set (.PINCFG1 4) (andNot g.1 (0xff <<< 16) ||| shl32 (uint32 val) 16) g.2
  | 39 => let g := Reg.Get (.PINCFG1 4) s; Reg.Set (.PINCFG1 4) (andNot g.1 (0xff <<< 24) ||| shl32 (uint32 val) 24) g.2
  | 40 => let g := Reg.Get (.PINCFG1 8) s; Reg.Set (.PINCFG1 8) (andNot g.1 (0xff <<< 0) ||| shl32 (uint32 val) 0) g.2
  | 41 => let g := Reg.Get (.PINCFG1 8) s; Reg.Set (.PINCFG1 8) (andNot g.1 (0xff <<< 8) ||| shl32 (uint32 val) 8) g.2
  | 42 => let g := Reg.Get (.PINCFG1 8) s; Reg.Set (.PINCFG1 8) (andNot g.1 (0xff <<< 16) ||| shl32 (uint32 val) 16) g.2
  | 43 => let g := Reg.Get (.PINCFG1 8) s; Reg.Set (.PINCFG1 8) (andNot g.1 (0xff <<< 24) ||| shl32 (uint32 val) 24) g.2
  | 44 => let g := Reg.Get (.PINCFG1 12) s; Reg.Set (.PINCFG1 12) (andNot g.1 (0xff <<< 0) ||| shl32 (uint32 val) 0) g.2
  | 45 => let g := Reg.Get (.PINCFG1 12) s; Reg.Set (.PINCFG1 12) (andNot g.1 (0xff <<< 8) ||| shl32 (uint32 val) 8) g.2
  | 46 => let g := Reg.Get (.PINCFG1 12) s; Reg.Set (.PINCFG1 12) (andNot g.1 (0xff <<< 16) ||| shl32 (uint32 val) 16) g.2
  | 47 => let g := Reg.Get (.PINCFG1 12) s; Reg.Set (.PINCFG1 12) (andNot g.1 (0xff <<< 24) ||| shl32 (uint32 val) 24) g.2
  | 48 => let g := Reg.Get (.PINCFG1 16) s; Reg.Set (.PINCFG1 16) (andNot g.1 (0xff <<< 0) ||| shl32 (uint32 val) 0) g.2
  | 49 => let g := Reg.Get (.PINCFG1 16) s; Reg.Set (.PINCFG1 16) (andNot g.1 (0xff <<< 8) ||| shl32 (uint32 val) 8) g.2
  | 50 => let g := Reg.Get (.PINCFG1 16) s; Reg.Set (.PINCFG1 16) (andNot g.1 (0xff <<< 16) ||| shl32 (uint32 val) 16) g.2
  | 51 => let g := Reg.Get (.PINCFG1 16) s; Reg.Set (.PINCFG1 16) (andNot g.1 (0xff <<< 24) ||| shl32 (uint32 val) 24) g.2
  | 52 => let g := Reg.Get (.PINCFG1 20) s; Reg.Set (.PINCFG1 20) (andNot g.1 (0xff <<< 0) ||| shl32 (uint32 val) 0) g.2
  | 53 => let g := Reg.Get (.PINCFG1 20) s; Reg.Set (.PINCFG1 20) (andNot g.1 (0xff <<< 8) ||| shl32 (uint32 val) 8) g.2
  | 54 => let g := Reg.Get (.PINCFG1 20) s; Reg.Set (.PINCFG1 20) (andNot g.1 (0xff <<< 16) ||| shl32 (uint32 val) 16) g.2
  | 55 => let g := Reg.Get (.PINCFG1 20) s; Reg.Set (.PINCFG1 20) (andNot g.1 (0xff <<< 24) ||| shl32 (uint32 val) 24) g.2
  | 56 => let g := Reg.Get (.PINCFG1 24) s; Reg.Set (.PINCFG1 24) (andNot g.1 (0xff <<< 0) ||| shl32 (uint32 val) 0) g.2
  | 57 => let g := Reg.Get (.PINCFG1 24) s; Reg.Set (.PINCFG1 24) (andNot g.1 (0xff <<< 8) ||| shl32 (uint32 val) 8) g.2
  | 58 => let g := Reg.Get (.PINCFG1 24) s; Reg.Set (.PINCFG1 24) (andNot g.1 (0xff <<< 16) ||| shl32 (uint32 val) 16) g.2
  | 59 => let g := Reg.Get (.PINCFG1 24) s; Reg.Set (.PINCFG1 24) (andNot g.1 (0xff <<< 24) ||| shl32 (uint32 val) 24) g.2
  | 60 => let g := Reg.Get (.PINCFG1 28) s; Reg.Set (.PINCFG1 28) (andNot g.1 (0xff <<< 0) ||| shl32 (uint32 val) 0) g.2
  | 61 => let g := Reg.Get (.PINCFG1 28) s; Reg.Set (.PINCFG1 28) (andNot g.1 (0xff <<< 8) ||| shl32 (uint32 val) 8) g.2
  | 62 => let g := Reg.Get (.PINCFG1 28) s; Reg.Set (.PINCFG1 28) (andNot g.1 (0xff <<< 16) ||| shl32 (uint32 val) 16) g.2
  | 63 => let g := Reg.Get (.PINCFG1 28) s; Reg.Set (.PINCFG1 28) (andNot g.1 (0xff <<< 24) ||| shl32 (uint32 val) 24) g.2
  | _ => s

/-- Source: `func (p Pin) Configure(config PinConfig)`, a switch on
`config.Mode`; the mode is passed directly. -/
def Pin.Configure (c : Consts) (p : Pin) (mode : PinMode) (s : Port) : Port :=
  match mode with
  | .PinOutput =>
    if p < 32 then
      let s := Reg.Set .DIRSET0 (shl32 1 (Pin.uint8 p)) s
      Pin.setPinCfg p c.PORT_PINCFG0_INEN s
    else
      let s := Reg.Set .DIRSET1 (shl32 1 (Pin.uint8 (p - 32))) s
      Pin.setPinCfg p c.PORT_PINCFG0_INEN s
  | .PinInput =>
    if p < 32 then
      let s := Reg.Set .DIRCLR0 (shl32 1 (Pin.uint8 p)) s
      Pin.setPinCfg p c.PORT_PINCFG0_INEN s
    else
      let s := Reg.Set .DIRCLR1 (sub32 (shl32 1 (Pin.uint8 p)) 32) s
      Pin.setPinCfg p c.PORT_PINCFG0_INEN s
  | .PinInputPulldown =>
    if p < 32 then
      let s := Reg.Set .DIRCLR0 (shl32 1 (Pin.uint8 p)) s
      let s := Reg.Set .OUTCLR0 (shl32 1 (Pin.uint8 p)) s
      Pin.setPinCfg p (c.PORT_PINCFG0_INEN ||| c.PORT_PINCFG0_PULLEN) s
    else
      let s := Reg.Set .DIRCLR1 (sub32 (shl32 1 (Pin.uint8 p)) 32) s
      let s := Reg.Set .OUTCLR1 (sub32 (shl32 1 (Pin.uint8 p)) 32) s
      Pin.setPinCfg p (c.PORT_PINCFG0_INEN ||| c.PORT_PINCFG0_PULLEN) s
  | .PinInputPullup =>
    if p < 32 then
      let s := Reg.Set .DIRCLR0 (shl32 1 (Pin.uint8 p)) s
      let s := Reg.Set .OUTSET0 (shl32 1 (Pin.uint8 p)) s
      Pin.setPinCfg p (c.PORT_PINCFG0_INEN ||| c.PORT_PINCFG0_PULLEN) s
    else
      let s := Reg.Set .DIRCLR1 (sub32 (shl32 1 (Pin.uint8 p)) 32) s
      let s := Reg.Set .OUTSET1 (sub32 (shl32 1 (Pin.uint8 p)) 32) s
      Pin.setPinCfg p (c.PORT_PINCFG0_INEN ||| c.PORT_PINCFG0_PULLEN) s
  | .PinSERCOM =>
    let s :=
      if Int.land p 1 > 0 then
        let g := Pin.getPMux p s
        let val := g.1 &&& PORT_PMUX0_PMUXE_Msk
        Pin.setPMux p (val ||| shl8 (uint8 c.PinSERCOM) PORT_PMUX0_PMUXO_Pos) g.2
      else
        let g := Pin.getPMux p s
        let val := g.1 &&& PORT_PMUX0_PMUXO_Msk
        Pin.setPMux p (val ||| shl8 (uint8 c.PinSERCOM) PORT_PMUX0_PMUXE_Pos) g.2
    Pin.setPinCfg p
      (c.PORT_PINCFG0_PMUXEN ||| c.PORT_PINCFG0_DRVSTR ||| c.PORT_PINCFG0_INEN) s
  | .PinSERCOMAlt =>
    let s :=
      if Int.land p 1 > 0 then
        let g := Pin.getPMux p s
        let val := g.1 &&& PORT_PMUX0_PMUXE_Msk
        Pin.setPMux p (val ||| shl8 (uint8 c.PinSERCOMAlt) PORT_PMUX0_PMUXO_Pos) g.2
      else
        let g := Pin.getPMux p s
        let val := g.1 &&& PORT_PMUX0_PMUXO_Msk
        Pin.setPMux p (val ||| shl8 (uint8 c.PinSERCOMAlt) PORT_PMUX0_PMUXE_Pos) g.2
    Pin.setPinCfg p (c.PORT_PINCFG0_PMUXEN ||| c.PORT_PINCFG0_DRVSTR) s
  | .PinCom =>
    let s :=
      if Int.land p 1 > 0 then
        let g := Pin.getPMux p s
        let val := g.1 &&& PORT_PMUX0_PMUXE_Msk
        Pin.setPMux p (val ||| shl8 (uint8 c.PinCom) PORT_PMUX0_PMUXO_Pos) g.2
      else
        let g := Pin.getPMux p s
        let val := g.1 &&& PORT_PMUX0_PMUXO_Msk
        Pin.setPMux p (val ||| shl8 (uint8 c.PinCom) PORT_PMUX0_PMUXE_Pos) g.2
    Pin.setPinCfg p c.PORT_PINCFG0_PMUXEN s
  | .PinAnalog =>
    let s :=
      if Int.land p 1 > 0 then
        let g := Pin.getPMux p s
        let val := g.1 &&& PORT_PMUX0_PMUXE_Msk
        Pin.setPMux p (val ||| shl8 (uint8 c.PinAnalog) PORT_PMUX0_PMUXO_Pos) g.2
      else
        let g := Pin.getPMux p s
        let val := g.1 &&& PORT_PMUX0_PMUXO_Msk
        Pin.setPMux p (val ||| shl8 (uint8 c.PinAnalog) PORT_PMUX0_PMUXE_Pos) g.2
    Pin.setPinCfg p (c.PORT_PINCFG0_PMUXEN ||| c.PORT_PINCFG0_DRVSTR) s
  | .other _ => s

/-- A sample choice of the constants, used for concrete evaluations: the flag
bits of the configuration byte as in the SAM D5x data sheet, and mode
selectors below 16. -/
def samd51 : Consts :=
  { PinSERCOM := 2, PinSERCOMAlt := 3, PinCom := 6, PinAnalog := 1,
    PORT_PINCFG0_PMUXEN := 0x01, PORT_PINCFG0_INEN := 0x02,
    PORT_PINCFG0_PULLEN := 0x04, PORT_PINCFG0_DRVSTR := 0x40 }

/-- The register bank after reset: every register zero, nothing logged. -/
def Port.reset : Port := { regs := fun _ => 0, log := [] }

/-- A register bank with some registers set, used for concrete evaluations. -/
def Port.sample : Port :=
  { regs := fun r =>
      match r with
      | .IN0 => 0x00000020
      | .IN1 => 0x00000002
      | .PMUX0 3 => 0x5a
      | .PMUX1 4 => 0x12345678
      | .PINCFG0 5 => 0x07
      | .PINCFG1 0 => 0xdeadbeef
      | .PINCFG1 8 => 0x0badcafe
      | _ => 0,
    log := [Access.read .IN0] }

/-! ## Derived definitions used to state and prove the properties -/

/-- Bit position of a pin inside the single-bit registers of its bank. -/
def bankBit (p : Pin) : Nat := (p % 32).toNat

/-- Read-modify-write of the byte at bit offset `k` of a 32-bit register, as
every bank-1 case of `setPMux` and `setPinCfg` does it. -/
def Reg.SetByte (r : Reg) (k val : Nat) (s : Port) : Port :=
  let g := Reg.Get r s
  Reg.Set r (andNot g.1 (0xff <<< k) ||| shl32 (uint32 val) k) g.2

/-- Read of the byte at bit offset `k` of a 32-bit register, as every bank-1
case of `getPMux` and `getPinCfg` does it. -/
def Reg.GetByte (r : Reg) (k : Nat) (s : Port) : Nat × Port :=
  let g := Reg.Get r s
  (uint8 (g.1 >>> k) &&& 0xff, g.2)

/-- The register holding the multiplexer byte of the pin pair `p >> 1`. -/
def pmuxReg (p : Pin) : Reg :=
  if p < 32 then .PMUX0 (p.toNat / 2) else .PMUX1 (4 * ((p.toNat - 32) / 8))

/-- Bit offset of the multiplexer byte of the pin pair `p >> 1` inside its
32-bit register (bank 1). -/
def pmuxOff (p : Pin) : Nat := 8 * (p.toNat / 2 % 4)

/-- The register holding the configuration byte of pin `p`: the byte register
`PINCFG0_p` in bank 0, the 32-bit register of the pin's group of four in
bank 1. -/
def pinCfgReg (p : Pin) : Reg :=
  if p < 32 then .PINCFG0 p.toNat else .PINCFG1 (4 * ((p.toNat - 32) / 4))

/-- Bit offset `(pin mod 4) * 8` of the configuration byte of pin `p` inside
its 32-bit register (bank 1). -/
def pinCfgOff (p : Pin) : Nat := p.toNat % 4 * 8

/-- The configuration byte of pin `p` in a register state, located as the data
model says: the `(pin / 4)`-th register of the bank at bit offset
`(pin mod 4) * 8`; in bank 0 that byte is the register `PINCFG0_p` itself. -/
def pinCfgByte (regs : Reg → Nat) (p : Pin) : Nat :=
  if p < 32 then regs (pinCfgReg p) else (regs (pinCfgReg p) >>> pinCfgOff p) % 256

/-- The word that a bank-1 case stores: byte lane `k` of `x` replaced by `v`. -/
def insByte (x k v : Nat) : Nat := andNot x (0xff <<< k) ||| shl32 (uint32 v) k

/-- The byte that a bank-1 case reads from lane `k` of `x`. -/
def getByte (x k : Nat) : Nat := uint8 (x >>> k) &&& 0xff

/-- The byte `Configure` stores for an odd pin: low nibble kept, selector in
the high nibble. -/
def oddByte (b S : Nat) : Nat :=
  (b &&& PORT_PMUX0_PMUXE_Msk) ||| shl8 (uint8 S) PORT_PMUX0_PMUXO_Pos

/-- The byte `Configure` stores for an even pin: high nibble kept, selector in
the low nibble. -/
def evenByte (b S : Nat) : Nat :=
  (b &&& PORT_PMUX0_PMUXO_Msk) ||| shl8 (uint8 S) PORT_PMUX0_PMUXE_Pos

/-- The multiplexer byte of the pin pair of `p` in a register state. -/
def pmuxByte (regs : Reg → Nat) (p : Pin) : Nat :=
  if p < 32 then regs (pmuxReg p) else getByte (regs (pmuxReg p)) (pmuxOff p)

/-- The value stored in the multiplexer register of `p` when byte `v` is written
for `p`. -/
def pmuxStore (regs : Reg → Nat) (p : Pin) (v : Nat) : Nat :=
  if p < 32 then v else insByte (regs (pmuxReg p)) (pmuxOff p) v

/-- The value stored in the configuration register of `p` when byte `v` is
written for `p`. -/
def pinCfgStore (regs : Reg → Nat) (p : Pin) (v : Nat) : Nat :=
  if p < 32 then v else insByte (regs (pinCfgReg p)) (pinCfgOff p) v

/-- The numeric multiplexer selector of a peripheral mode, for the four modes
whose case writes one. -/
def Consts.selector (c : Consts) : PinMode → Option Nat
  | .PinSERCOM => some c.PinSERCOM
  | .PinSERCOMAlt => some c.PinSERCOMAlt
  | .PinCom => some c.PinCom
  | .PinAnalog => some c.PinAnalog
  | _ => none

/-- The configuration byte each handled mode is expected to leave, as a table
of the flag constants. -/
def Consts.cfgByteOf (c : Consts) : PinMode → Option Nat
  | .PinOutput => some c.PORT_PINCFG0_INEN
  | .PinInput => some c.PORT_PINCFG0_INEN
  | .PinInputPulldown => some (c.PORT_PINCFG0_INEN ||| c.PORT_PINCFG0_PULLEN)
  | .PinInputPullup => some (c.PORT_PINCFG0_INEN ||| c.PORT_PINCFG0_PULLEN)
  | .PinSERCOM =>
    some (c.PORT_PINCFG0_PMUXEN ||| c.PORT_PINCFG0_DRVSTR ||| c.PORT_PINCFG0_INEN)
  | .PinSERCOMAlt => some (c.PORT_PINCFG0_PMUXEN ||| c.PORT_PINCFG0_DRVSTR)
  | .PinCom => some c.PORT_PINCFG0_PMUXEN
  | .PinAnalog => some (c.PORT_PINCFG0_PMUXEN ||| c.PORT_PINCFG0_DRVSTR)
  | .other _ => none

/-- The multiplexer step that the four peripheral cases of `Configure` share:
read the byte of the pin pair, keep the nibble of the other pin, put the
selector `S` in the nibble of `p`, write the byte back. -/
def muxWrite (p : Pin) (S : Nat) (s : Port) : Port :=
  if Int.land p 1 > 0 then
    let g := Pin.getPMux p s
    Pin.setPMux p (oddByte g.1 S) g.2
  else
    let g := Pin.getPMux p s
    Pin.setPMux p (evenByte g.1 S) g.2

/-- The byte `Configure` composes from the old multiplexer byte `b` and the
selector `S`, by the parity of the pin. -/
def nibByte (p : Pin) (b S : Nat) : Nat :=
  if p % 2 = 1 then oddByte b S else evenByte b S

/-- Update of one register by a function of its own stored value. -/
def upd (f : Reg → Nat) (r : Reg) (g : Nat → Nat) : Reg → Nat :=
  Function.update f r (g (f r))

/-- What `setPinCfg p v` does to the stored value `x` of the configuration
register of `p`; nothing for an index outside 0..63. -/
def cfgFun (p : Pin) (v : Nat) (x : Nat) : Nat :=
  if 0 ≤ p ∧ p ≤ 63 then (if p < 32 then v else insByte x (pinCfgOff p) v) else x

/-- What the multiplexer step of `Configure` does to the stored value `x` of
the multiplexer register of `p`; nothing for an index outside 0..63. -/
def muxFun (p : Pin) (S : Nat) (x : Nat) : Nat :=
  if 0 ≤ p ∧ p ≤ 63 then
    (if p < 32 then nibByte p x S
      else insByte x (pmuxOff p) (nibByte p (getByte x (pmuxOff p)) S))
  else x

/-- The accesses that a step from state `s` to state `t` appended to the log. -/
def Port.newLog (s t : Port) : List Access := t.log.drop s.log.length

/-! ## The arithmetic register resolver

The four packed-field accessors are case lists over the pin index. The derived
definitions `pmuxReg`, `pmuxOff`, `pinCfgReg` and `pinCfgOff` locate the same
fields by arithmetic on the index, as the data model describes them; the
lemmas of this section show that on pins 0..63 the case lists of `setPMux`,
`getPMux` and `setPinCfg` compute exactly these. -/

theorem setPMux_eq (p : Pin) (h0 : 0 ≤ p) (h1 : p ≤ 63) (v : Nat) (s : Port) :
    Pin.setPMux p v s =
      if p < 32 then Reg.Set (pmuxReg p) v s else Reg.SetByte (pmuxReg p) (pmuxOff p) v s := by
  interval_cases p <;> rfl

theorem getPMux_eq (p : Pin) (h0 : 0 ≤ p) (h1 : p ≤ 63) (s : Port) :
    Pin.getPMux p s =
      if p < 32 then Reg.Get (pmuxReg p) s else Reg.GetByte (pmuxReg p) (pmuxOff p) s := by
  interval_cases p <;> rfl

theorem setPinCfg_eq (p : Pin) (h0 : 0 ≤ p) (h1 : p ≤ 63) (v : Nat) (s : Port) :
    Pin.setPinCfg p v s =
      if p < 32 then Reg.Set (pinCfgReg p) v s
      else Reg.SetByte (pinCfgReg p) (pinCfgOff p) v s := by
  interval_cases p <;> rfl

theorem setPinCfg_default (p : Pin) (h0 : -128 ≤ p) (h1 : p ≤ 255) (h : p < 0 ∨ 63 < p)
    (v : Nat) (s : Port) : Pin.setPinCfg p v s = s := by
  rcases h with h | h
  · interval_cases p <;> rfl
  · interval_cases p <;> rfl

/-! ## Bit-level facts about the packed-byte read-modify-write -/

theorem testBit_andNot (a b i : Nat) :
    (andNot a b).testBit i = (a.testBit i && !b.testBit i) := by
  unfold andNot
  rw [Nat.testBit_xor, Nat.testBit_and]
  cases a.testBit i <;> cases b.testBit i <;> rfl

theorem testBit_0xff (i : Nat) : (0xff : Nat).testBit i = decide (i < 8) := by
  have h : (0xff : Nat) = 2 ^ 8 - 1 := by norm_num
  rw [h, Nat.testBit_two_pow_sub_one]

theorem testBit_0xf (i : Nat) : (0xf : Nat).testBit i = decide (i < 4) := by
  have h : (0xf : Nat) = 2 ^ 4 - 1 := by norm_num
  rw [h, Nat.testBit_two_pow_sub_one]

theorem testBit_0xf0 (i : Nat) :
    (0xf0 : Nat).testBit i = (decide (4 ≤ i) && decide (i < 8)) := by
  have h : (0xf0 : Nat) = (2 ^ 4 - 1) <<< 4 := by decide
  rw [h, Nat.testBit_shiftLeft, Nat.testBit_two_pow_sub_one]
  by_cases h4 : 4 ≤ i <;> by_cases h8 : i < 8 <;> simp [h4, h8] <;> omega

theorem testBit_of_lt_256 {v : Nat} (hv : v < 256) {i : Nat} (hi : 8 ≤ i) :
    v.testBit i = false := by
  apply Nat.testBit_lt_two_pow
  calc v < 2 ^ 8 := by simpa using hv
    _ ≤ 2 ^ i := Nat.pow_le_pow_right (by norm_num) hi

theorem testBit_insByte (x k v i : Nat) (hv : v < 256) (hk : k ≤ 24) :
    (insByte x k v).testBit i =
      if k ≤ i ∧ i < k + 8 then v.testBit (i - k) else x.testBit i := by
  have hv32 : v % 2 ^ 32 = v := Nat.mod_eq_of_lt (by omega)
  simp only [insByte, shl32, uint32, Nat.testBit_or, testBit_andNot, Nat.testBit_shiftLeft,
    testBit_0xff, Nat.testBit_mod_two_pow, hv32]
  by_cases h1 : k ≤ i
  · by_cases h2 : i < k + 8
    · have h3 : i - k < 8 := by omega
      have h4 : i < 32 := by omega
      simp [h1, h2, h3, h4]
    · have h3 : ¬ (i - k < 8) := by omega
      have h5 : v.testBit (i - k) = false := testBit_of_lt_256 hv (by omega)
      simp [h1, h2, h3, h5]
  · simp [h1]

theorem testBit_getByte (x k i : Nat) :
    (getByte x k).testBit i = (decide (i < 8) && x.testBit (k + i)) := by
  simp only [getByte, uint8, Nat.testBit_and, Nat.testBit_mod_two_pow, Nat.testBit_shiftRight,
    testBit_0xff]
  by_cases h : i < 8 <;> simp [h]

theorem getByte_lt (x k : Nat) : getByte x k < 256 := by
  unfold getByte
  exact Nat.lt_of_le_of_lt Nat.and_le_right (by norm_num)

theorem getByte_eq (x k : Nat) : getByte x k = (x >>> k) % 256 := by
  apply Nat.eq_of_testBit_eq
  intro i
  have h : (256 : Nat) = 2 ^ 8 := by norm_num
  rw [testBit_getByte, h, Nat.testBit_mod_two_pow, Nat.testBit_shiftRight]

theorem getByte_insByte_same (x k v : Nat) (hv : v < 256) (hk : k ≤ 24) :
    getByte (insByte x k v) k = v := by
  apply Nat.eq_of_testBit_eq
  intro i
  rw [testBit_getByte, testBit_insByte x k v (k + i) hv hk]
  by_cases h : i < 8
  · have h2 : k ≤ k + i ∧ k + i < k + 8 := by omega
    simp [h, h2]
  · have h5 : v.testBit i = false := testBit_of_lt_256 hv (by omega)
    simp [h, h5]

theorem getByte_insByte_other (x k j v : Nat) (hv : v < 256) (hk : k ≤ 24)
    (hkj : j + 8 ≤ k ∨ k + 8 ≤ j) : getByte (insByte x k v) j = getByte x j := by
  apply Nat.eq_of_testBit_eq
  intro i
  rw [testBit_getByte, testBit_getByte, testBit_insByte x k v (j + i) hv hk]
  by_cases h : i < 8
  · have h2 : ¬ (k ≤ j + i ∧ j + i < k + 8) := by omega
    simp [h, h2]
  · simp [h]

theorem insByte_insByte (x k v w : Nat) (hv : v < 256) (hw : w < 256) (hk : k ≤ 24) :
    insByte (insByte x k v) k w = insByte x k w := by
  apply Nat.eq_of_testBit_eq
  intro i
  rw [testBit_insByte _ k w i hw hk, testBit_insByte x k w i hw hk,
    testBit_insByte x k v i hv hk]
  by_cases h : k ≤ i ∧ i < k + 8 <;> simp [h]

theorem insByte_idem (x k v : Nat) : insByte (insByte x k v) k v = insByte x k v := by
  apply Nat.eq_of_testBit_eq
  intro i
  simp only [insByte, Nat.testBit_or, testBit_andNot]
  cases x.testBit i <;> cases ((0xff : Nat) <<< k).testBit i <;>
    cases (shl32 (uint32 v) k).testBit i <;> rfl

/-! ## The nibbles of a multiplexer byte -/

theorem testBit_div16_mod16 (x i : Nat) :
    (x / 16 % 16).testBit i = (decide (i < 4) && x.testBit (4 + i)) := by
  have h : (16 : Nat) = 2 ^ 4 := by norm_num
  rw [h, Nat.testBit_mod_two_pow, ← Nat.shiftRight_eq_div_pow, Nat.testBit_shiftRight]

theorem testBit_mod16 (x i : Nat) :
    (x % 16).testBit i = (decide (i < 4) && x.testBit i) := by
  have h : (16 : Nat) = 2 ^ 4 := by norm_num
  rw [h, Nat.testBit_mod_two_pow]

theorem testBit_of_lt_16 {v : Nat} (hv : v < 16) {i : Nat} (hi : 4 ≤ i) :
    v.testBit i = false := by
  apply Nat.testBit_lt_two_pow
  calc v < 2 ^ 4 := by simpa using hv
    _ ≤ 2 ^ i := Nat.pow_le_pow_right (by norm_num) hi

theorem oddByte_lt (b S : Nat) : oddByte b S < 256 := by
  have h : (256 : Nat) = 2 ^ 8 := by norm_num
  rw [h]
  apply Nat.or_lt_two_pow
  · exact Nat.and_lt_two_pow _ (by norm_num [PORT_PMUX0_PMUXE_Msk])
  · exact Nat.mod_lt _ (by norm_num)

theorem evenByte_lt (b S : Nat) : evenByte b S < 256 := by
  have h : (256 : Nat) = 2 ^ 8 := by norm_num
  rw [h]
  apply Nat.or_lt_two_pow
  · exact Nat.and_lt_two_pow _ (by norm_num [PORT_PMUX0_PMUXO_Msk])
  · exact Nat.mod_lt _ (by norm_num)

theorem testBit_oddByte (b S i : Nat) (hS : S < 16) :
    (oddByte b S).testBit i =
      if i < 4 then b.testBit i else (decide (i < 8) && S.testBit (i - 4)) := by
  have hS8 : S % 2 ^ 8 = S := Nat.mod_eq_of_lt (by omega)
  simp only [oddByte, shl8, uint8, PORT_PMUX0_PMUXE_Msk, PORT_PMUX0_PMUXO_Pos, Nat.testBit_or,
    Nat.testBit_and, testBit_0xf, Nat.testBit_mod_two_pow, Nat.testBit_shiftLeft, hS8]
  by_cases h4 : i < 4
  · have : ¬ (i ≥ 4) := by omega
    simp [h4, this]
  · have : i ≥ 4 := by omega
    simp [h4, this]

theorem testBit_evenByte (b S i : Nat) (hS : S < 16) :
    (evenByte b S).testBit i =
      if i < 4 then S.testBit i else (decide (i < 8) && b.testBit i) := by
  have hS8 : S % 2 ^ 8 = S := Nat.mod_eq_of_lt (by omega)
  simp only [evenByte, shl8, uint8, PORT_PMUX0_PMUXO_Msk, PORT_PMUX0_PMUXE_Pos, Nat.testBit_or,
    Nat.testBit_and, testBit_0xf0, Nat.testBit_mod_two_pow, Nat.testBit_shiftLeft, hS8]
  by_cases h4 : i < 4
  · have h5 : ¬ (4 ≤ i) := by omega
    have h6 : i < 8 := by omega
    simp [h4, h5, h6]
  · have h5 : 4 ≤ i := by omega
    have h6 : S.testBit i = false := testBit_of_lt_16 hS h5
    by_cases h8 : i < 8 <;> simp [h4, h5, h6, h8]

theorem oddByte_hi (b S : Nat) (hS : S < 16) : oddByte b S / 16 % 16 = S := by
  apply Nat.eq_of_testBit_eq
  intro i
  rw [testBit_div16_mod16, testBit_oddByte b S (4 + i) hS]
  by_cases h : i < 4
  · have h1 : ¬ (4 + i < 4) := by omega
    have h2 : 4 + i < 8 := by omega
    simp [h, h1, h2]
  · have h6 : S.testBit i = false := testBit_of_lt_16 hS (by omega)
    simp [h, h6]

theorem oddByte_lo (b S : Nat) (hS : S < 16) : oddByte b S % 16 = b % 16 := by
  apply Nat.eq_of_testBit_eq
  intro i
  rw [testBit_mod16, testBit_mod16, testBit_oddByte b S i hS]
  by_cases h : i < 4 <;> simp [h]

theorem evenByte_lo (b S : Nat) (hS : S < 16) : evenByte b S % 16 = S := by
  apply Nat.eq_of_testBit_eq
  intro i
  rw [testBit_mod16, testBit_evenByte b S i hS]
  by_cases h : i < 4
  · simp [h]
  · have h6 : S.testBit i = false := testBit_of_lt_16 hS (by omega)
    simp [h, h6]

theorem evenByte_hi (b S : Nat) (hS : S < 16) : evenByte b S / 16 % 16 = b / 16 % 16 := by
  apply Nat.eq_of_testBit_eq
  intro i
  rw [testBit_div16_mod16, testBit_div16_mod16, testBit_evenByte b S (4 + i) hS]
  by_cases h : i < 4
  · have h1 : ¬ (4 + i < 4) := by omega
    have h2 : 4 + i < 8 := by omega
    simp [h, h1, h2]
  · simp [h]

/-! ## Register effects of the accessors on pins 0..63 -/

@[simp] theorem Reg.Set_regs (r : Reg) (v : Nat) (s : Port) :
    (Reg.Set r v s).regs = Function.update s.regs r v := rfl

@[simp] theorem Reg.Set_log (r : Reg) (v : Nat) (s : Port) :
    (Reg.Set r v s).log = s.log ++ [Access.write r v] := rfl

@[simp] theorem Reg.Get_val (r : Reg) (s : Port) : (Reg.Get r s).1 = s.regs r := rfl

@[simp] theorem Reg.Get_regs (r : Reg) (s : Port) : (Reg.Get r s).2.regs = s.regs := rfl

@[simp] theorem Reg.Get_log (r : Reg) (s : Port) :
    (Reg.Get r s).2.log = s.log ++ [Access.read r] := rfl

@[simp] theorem Reg.SetByte_regs (r : Reg) (k v : Nat) (s : Port) :
    (Reg.SetByte r k v s).regs = Function.update s.regs r (insByte (s.regs r) k v) := rfl

@[simp] theorem Reg.SetByte_log (r : Reg) (k v : Nat) (s : Port) :
    (Reg.SetByte r k v s).log =
      s.log ++ [Access.read r, Access.write r (insByte (s.regs r) k v)] := by
  simp [Reg.SetByte, insByte]

@[simp] theorem Reg.GetByte_val (r : Reg) (k : Nat) (s : Port) :
    (Reg.GetByte r k s).1 = getByte (s.regs r) k := rfl

@[simp] theorem Reg.GetByte_regs (r : Reg) (k : Nat) (s : Port) :
    (Reg.GetByte r k s).2.regs = s.regs := rfl

theorem pmuxOff_le (p : Pin) : pmuxOff p ≤ 24 := by
  unfold pmuxOff; omega

theorem pinCfgOff_le (p : Pin) : pinCfgOff p ≤ 24 := by
  unfold pinCfgOff; omega

theorem getPMux_val (p : Pin) (h0 : 0 ≤ p) (h1 : p ≤ 63) (s : Port) :
    (Pin.getPMux p s).1 = pmuxByte s.regs p := by
  rw [getPMux_eq p h0 h1, pmuxByte]
  split <;> rfl

theorem getPMux_regs (p : Pin) (h0 : 0 ≤ p) (h1 : p ≤ 63) (s : Port) :
    (Pin.getPMux p s).2.regs = s.regs := by
  rw [getPMux_eq p h0 h1]
  split <;> rfl

theorem setPMux_regs (p : Pin) (h0 : 0 ≤ p) (h1 : p ≤ 63) (v : Nat) (s : Port) :
    (Pin.setPMux p v s).regs =
      Function.update s.regs (pmuxReg p) (pmuxStore s.regs p v) := by
  rw [setPMux_eq p h0 h1, pmuxStore]
  split <;> rfl

theorem setPinCfg_regs (p : Pin) (h0 : 0 ≤ p) (h1 : p ≤ 63) (v : Nat) (s : Port) :
    (Pin.setPinCfg p v s).regs =
      Function.update s.regs (pinCfgReg p) (pinCfgStore s.regs p v) := by
  rw [setPinCfg_eq p h0 h1, pinCfgStore]
  split <;> rfl

theorem setPinCfg_log (p : Pin) (h0 : 0 ≤ p) (h1 : p ≤ 63) (v : Nat) (s : Port) :
    (Pin.setPinCfg p v s).log =
      s.log ++ (if p < 32 then [Access.write (pinCfgReg p) v]
        else [Access.read (pinCfgReg p),
          Access.write (pinCfgReg p) (insByte (s.regs (pinCfgReg p)) (pinCfgOff p) v)]) := by
  rw [setPinCfg_eq p h0 h1]
  split <;> simp

theorem pinCfgReg_ne_pmuxReg (p q : Pin) : pinCfgReg p ≠ pmuxReg q := by
  unfold pinCfgReg pmuxReg
  split <;> split <;> simp

theorem pmuxByte_update_cfg (regs : Reg → Nat) (p q : Pin) (x : Nat) :
    pmuxByte (Function.update regs (pinCfgReg p) x) q = pmuxByte regs q := by
  unfold pmuxByte
  rw [Function.update_noteq (pinCfgReg_ne_pmuxReg p q).symm]

theorem pmuxByte_store_same (regs : Reg → Nat) (p : Pin) (v : Nat) (hv : v < 256) :
    pmuxByte (Function.update regs (pmuxReg p) (pmuxStore regs p v)) p = v := by
  unfold pmuxByte pmuxStore
  rw [Function.update_same]
  split
  · rfl
  · exact getByte_insByte_same _ _ _ hv (pmuxOff_le p)

theorem pinCfgByte_store_same (regs : Reg → Nat) (p : Pin) (v : Nat) (hv : v < 256) :
    pinCfgByte (Function.update regs (pinCfgReg p) (pinCfgStore regs p v)) p = v := by
  unfold pinCfgByte pinCfgStore
  rw [Function.update_same]
  split
  · rfl
  · rw [← getByte_eq]
    exact getByte_insByte_same _ _ _ hv (pinCfgOff_le p)

theorem land_one_pos (p : Pin) (h0 : 0 ≤ p) (h1 : p ≤ 63) :
    Int.land p 1 > 0 ↔ p % 2 = 1 := by
  interval_cases p <;> decide

theorem testBit_eq_shift_and (x k : Nat) :
    decide ((x >>> k) &&& 1 > 0) = x.testBit k := by
  rw [Nat.testBit, Nat.and_comm]
  generalize 1 &&& x >>> k = y
  cases y <;> simp

theorem Configure_peripheral (c : Consts) (p : Pin) (m : PinMode) (S : Nat)
    (hm : c.selector m = some S) (s : Port) :
    ∃ v, c.cfgByteOf m = some v ∧
      Pin.Configure c p m s = Pin.setPinCfg p v (muxWrite p S s) := by
  cases m <;> simp only [Consts.selector, Option.some.injEq, reduceCtorEq] at hm <;> subst hm
  · exact ⟨_, rfl, rfl⟩
  · exact ⟨_, rfl, rfl⟩
  · exact ⟨_, rfl, rfl⟩
  · exact ⟨_, rfl, rfl⟩

theorem muxWrite_regs (p : Pin) (h0 : 0 ≤ p) (h1 : p ≤ 63) (S : Nat) (s : Port) :
    (muxWrite p S s).regs =
      Function.update s.regs (pmuxReg p)
        (pmuxStore s.regs p (nibByte p (pmuxByte s.regs p) S)) := by
  unfold muxWrite nibByte
  by_cases h : Int.land p 1 > 0
  · have h2 : p % 2 = 1 := (land_one_pos p h0 h1).1 h
    simp only [h, h2, if_true]
    rw [setPMux_regs p h0 h1, getPMux_regs p h0 h1, getPMux_val p h0 h1]
  · have h2 : ¬ (p % 2 = 1) := fun h3 => h ((land_one_pos p h0 h1).2 h3)
    simp only [h, h2, if_false]
    rw [setPMux_regs p h0 h1, getPMux_regs p h0 h1, getPMux_val p h0 h1]

theorem Configure_ends_in_setPinCfg (c : Consts) (p : Pin) (m : PinMode) (v : Nat)
    (hm : c.cfgByteOf m = some v) (s : Port) :
    ∃ t : Port, Pin.Configure c p m s = Pin.setPinCfg p v t := by
  cases m <;> simp only [Consts.cfgByteOf, Option.some.injEq, reduceCtorEq] at hm <;>
    subst hm <;> unfold Pin.Configure
  · by_cases h : p < 32 <;> simp only [h, if_true, if_false] <;> exact ⟨_, rfl⟩
  · by_cases h : p < 32 <;> simp only [h, if_true, if_false] <;> exact ⟨_, rfl⟩
  · by_cases h : p < 32 <;> simp only [h, if_true, if_false] <;> exact ⟨_, rfl⟩
  · by_cases h : p < 32 <;> simp only [h, if_true, if_false] <;> exact ⟨_, rfl⟩
  · exact ⟨_, rfl⟩
  · exact ⟨_, rfl⟩
  · exact ⟨_, rfl⟩
  · exact ⟨_, rfl⟩

theorem cfgByteOf_lt (c : Consts) (hc : c.IsByte) (m : PinMode) (v : Nat)
    (hm : c.cfgByteOf m = some v) : v < 256 := by
  obtain ⟨h1, h2, h3, h4⟩ := hc
  have e : (256 : Nat) = 2 ^ 8 := by norm_num
  rw [e] at h1 h2 h3 h4 ⊢
  cases m <;> simp only [Consts.cfgByteOf, Option.some.injEq, reduceCtorEq] at hm <;>
    subst hm
  · exact h2
  · exact h2
  · exact Nat.or_lt_two_pow h2 h3
  · exact Nat.or_lt_two_pow h2 h3
  · exact Nat.or_lt_two_pow (Nat.or_lt_two_pow h1 h4) h2
  · exact Nat.or_lt_two_pow h1 h4
  · exact h1
  · exact Nat.or_lt_two_pow h1 h4

theorem or_xor_and (a i : Nat) : ((a ||| i) ^^^ a) &&& i = (a ||| i) ^^^ a := by
  apply Nat.eq_of_testBit_eq
  intro k
  simp only [Nat.testBit_and, Nat.testBit_xor, Nat.testBit_or]
  cases a.testBit k <;> cases i.testBit k <;> rfl

theorem pmuxByte_store_other (regs : Reg → Nat) (p q : Pin) (h0 : 0 ≤ p) (h1 : p ≤ 63)
    (g0 : 0 ≤ q) (g1 : q ≤ 63) (v : Nat) (hv : v < 256)
    (hne : Pin.uint8 q >>> 1 ≠ Pin.uint8 p >>> 1) :
    pmuxByte (Function.update regs (pmuxReg p) (pmuxStore regs p v)) q = pmuxByte regs q := by
  have h0i : @LE.le Int _ 0 p := h0
  have h1i : @LE.le Int _ p 63 := h1
  have g0i : @LE.le Int _ 0 q := g0
  have g1i : @LE.le Int _ q 63 := g1
  have hne2 : Int.toNat q / 2 ≠ Int.toNat p / 2 := by
    intro h
    apply hne
    simp only [Pin.uint8, Nat.shiftRight_eq_div_pow]
    omega
  by_cases hreg : pmuxReg q = pmuxReg p
  · unfold pmuxByte pmuxStore
    rw [hreg, Function.update_same]
    unfold pmuxReg at hreg
    by_cases hq : q < 32 <;> by_cases hp : p < 32 <;>
      simp only [hq, hp, if_true, if_false, Reg.PMUX0.injEq, Reg.PMUX1.injEq, reduceCtorEq]
        at hreg ⊢
    · exact absurd hreg hne2
    · have hqi : ¬ @LT.lt Int _ q 32 := hq
      have hpi : ¬ @LT.lt Int _ p 32 := hp
      apply getByte_insByte_other _ _ _ _ hv (pmuxOff_le p)
      unfold pmuxOff
      omega
  · unfold pmuxByte
    rw [Function.update_noteq hreg]

theorem upd_idem (f : Reg → Nat) (r : Reg) (g : Nat → Nat) (hg : ∀ x, g (g x) = g x) :
    upd (upd f r g) r g = upd f r g := by
  funext x
  simp only [upd, Function.update_apply]
  split_ifs <;> simp_all

theorem upd2_idem (f : Reg → Nat) (r1 r2 : Reg) (g1 g2 : Nat → Nat) (h12 : r1 ≠ r2)
    (hg1 : ∀ x, g1 (g1 x) = g1 x) (hg2 : ∀ x, g2 (g2 x) = g2 x) :
    upd (upd (upd (upd f r1 g1) r2 g2) r1 g1) r2 g2 = upd (upd f r1 g1) r2 g2 := by
  funext x
  have h21 : r2 ≠ r1 := h12.symm
  simp only [upd, Function.update_apply]
  split_ifs <;> simp_all

theorem upd3_idem (f : Reg → Nat) (r1 r2 r3 : Reg) (g1 g2 g3 : Nat → Nat) (h12 : r1 ≠ r2)
    (h13 : r1 ≠ r3) (h23 : r2 ≠ r3)
    (hg1 : ∀ x, g1 (g1 x) = g1 x) (hg2 : ∀ x, g2 (g2 x) = g2 x)
    (hg3 : ∀ x, g3 (g3 x) = g3 x) :
    upd (upd (upd (upd (upd (upd f r1 g1) r2 g2) r3 g3) r1 g1) r2 g2) r3 g3 =
      upd (upd (upd f r1 g1) r2 g2) r3 g3 := by
  funext x
  have h21 : r2 ≠ r1 := h12.symm
  have h31 : r3 ≠ r1 := h13.symm
  have h32 : r3 ≠ r2 := h23.symm
  simp only [upd, Function.update_apply]
  split_ifs <;> simp_all

theorem cfgFun_idem (p : Pin) (v x : Nat) : cfgFun p v (cfgFun p v x) = cfgFun p v x := by
  unfold cfgFun
  split
  · split
    · rfl
    · exact insByte_idem _ _ _
  · rfl

theorem oddByte_idem (b S : Nat) : oddByte (oddByte b S) S = oddByte b S := by
  apply Nat.eq_of_testBit_eq
  intro i
  simp only [oddByte, Nat.testBit_or, Nat.testBit_and]
  cases b.testBit i <;> cases PORT_PMUX0_PMUXE_Msk.testBit i <;>
    cases (shl8 (uint8 S) PORT_PMUX0_PMUXO_Pos).testBit i <;> rfl

theorem evenByte_idem (b S : Nat) : evenByte (evenByte b S) S = evenByte b S := by
  apply Nat.eq_of_testBit_eq
  intro i
  simp only [evenByte, Nat.testBit_or, Nat.testBit_and]
  cases b.testBit i <;> cases PORT_PMUX0_PMUXO_Msk.testBit i <;>
    cases (shl8 (uint8 S) PORT_PMUX0_PMUXE_Pos).testBit i <;> rfl

theorem nibByte_idem (p : Pin) (b S : Nat) : nibByte p (nibByte p b S) S = nibByte p b S := by
  unfold nibByte
  split
  · exact oddByte_idem _ _
  · exact evenByte_idem _ _

theorem nibByte_lt (p : Pin) (b S : Nat) : nibByte p b S < 256 := by
  unfold nibByte
  split
  · exact oddByte_lt _ _
  · exact evenByte_lt _ _

theorem muxFun_idem (p : Pin) (S x : Nat) : muxFun p S (muxFun p S x) = muxFun p S x := by
  unfold muxFun
  split
  · split
    · exact nibByte_idem _ _ _
    · rw [getByte_insByte_same _ _ _ (nibByte_lt _ _ _) (pmuxOff_le p), nibByte_idem,
        insByte_idem]
  · rfl

theorem setPinCfg_upd (p : Pin) (hlo : -128 ≤ p) (hhi : p ≤ 255) (v : Nat) (s : Port) :
    (Pin.setPinCfg p v s).regs = upd s.regs (pinCfgReg p) (cfgFun p v) := by
  by_cases h : 0 ≤ p ∧ p ≤ 63
  · rw [setPinCfg_regs p h.1 h.2]
    unfold upd cfgFun pinCfgStore
    simp only [h, and_self, if_true]
  · have h2 : p < 0 ∨ 63 < p := by
      by_cases h3 : 0 ≤ p
      · exact Or.inr (not_le.1 (fun h4 => h ⟨h3, h4⟩))
      · exact Or.inl (not_le.1 h3)
    rw [setPinCfg_default p hlo hhi h2]
    unfold upd cfgFun
    simp only [h, if_false, Function.update_eq_self]

theorem getPMux_default (p : Pin) (hlo : -128 ≤ p) (hhi : p ≤ 255) (h : p < 0 ∨ 63 < p)
    (s : Port) : Pin.getPMux p s = (0, s) := by
  rcases h with h | h
  · interval_cases p <;> rfl
  · interval_cases p <;> rfl

theorem setPMux_default (p : Pin) (hlo : -128 ≤ p) (hhi : p ≤ 255) (h : p < 0 ∨ 63 < p)
    (v : Nat) (s : Port) : Pin.setPMux p v s = s := by
  rcases h with h | h
  · interval_cases p <;> rfl
  · interval_cases p <;> rfl

theorem muxWrite_default (p : Pin) (hlo : -128 ≤ p) (hhi : p ≤ 255) (h : p < 0 ∨ 63 < p)
    (S : Nat) (s : Port) : muxWrite p S s = s := by
  unfold muxWrite
  split <;> simp only [getPMux_default p hlo hhi h, setPMux_default p hlo hhi h]

theorem muxWrite_upd (p : Pin) (hlo : -128 ≤ p) (hhi : p ≤ 255) (S : Nat) (s : Port) :
    (muxWrite p S s).regs = upd s.regs (pmuxReg p) (muxFun p S) := by
  by_cases h : 0 ≤ p ∧ p ≤ 63
  · rw [muxWrite_regs p h.1 h.2]
    unfold upd muxFun pmuxStore pmuxByte
    simp only [h, and_self, if_true]
    split <;> rfl
  · have h2 : p < 0 ∨ 63 < p := by
      by_cases h3 : 0 ≤ p
      · exact Or.inr (not_le.1 (fun h4 => h ⟨h3, h4⟩))
      · exact Or.inl (not_le.1 h3)
    rw [muxWrite_default p hlo hhi h2]
    unfold upd muxFun
    simp only [h, if_false, Function.update_eq_self]

theorem Reg.Set_upd (r : Reg) (v : Nat) (s : Port) :
    (Reg.Set r v s).regs = upd s.regs r (fun _ => v) := rfl

theorem pinCfgReg_ne_bank (p : Pin) :
    Reg.DIRSET0 ≠ pinCfgReg p ∧ Reg.DIRSET1 ≠ pinCfgReg p ∧ Reg.DIRCLR0 ≠ pinCfgReg p ∧
    Reg.DIRCLR1 ≠ pinCfgReg p ∧ Reg.OUTSET0 ≠ pinCfgReg p ∧ Reg.OUTSET1 ≠ pinCfgReg p ∧
    Reg.OUTCLR0 ≠ pinCfgReg p ∧ Reg.OUTCLR1 ≠ pinCfgReg p := by
  unfold pinCfgReg
  split <;> simp

theorem periph_idem (p : Pin) (hlo : -128 ≤ p) (hhi : p ≤ 255) (v S : Nat) (s : Port) :
    (Pin.setPinCfg p v (muxWrite p S (Pin.setPinCfg p v (muxWrite p S s)))).regs =
      (Pin.setPinCfg p v (muxWrite p S s)).regs := by
  simp only [setPinCfg_upd p hlo hhi, muxWrite_upd p hlo hhi]
  exact upd2_idem _ _ _ _ _ (pinCfgReg_ne_pmuxReg p p).symm (muxFun_idem p S) (cfgFun_idem p v)

theorem getPinCfg_eq_low (p : Pin) (h0 : 0 ≤ p) (h1 : p ≤ 35) (s : Port) :
    Pin.getPinCfg p s =
      if p < 32 then Reg.Get (pinCfgReg p) s
      else Reg.GetByte (pinCfgReg p) (pinCfgOff p) s := by
  interval_cases p <;> rfl

theorem getPinCfg_eq_shifted (p : Pin) (h0 : 37 ≤ p) (h1 : p ≤ 64) (s : Port) :
    Pin.getPinCfg p s = Reg.GetByte (pinCfgReg (p - 1)) (pinCfgOff (p - 1)) s := by
  interval_cases p <;> rfl

theorem setPinCfg_newLog (p : Pin) (h0 : 0 ≤ p) (h1 : p ≤ 63) (v : Nat) (s : Port) :
    Port.newLog s (Pin.setPinCfg p v s) =
      if p < 32 then [Access.write (pinCfgReg p) v]
      else [Access.read (pinCfgReg p),
        Access.write (pinCfgReg p) (insByte (s.regs (pinCfgReg p)) (pinCfgOff p) v)] := by
  unfold Port.newLog
  rw [setPinCfg_log p h0 h1, List.drop_left]

theorem shl32_one_bank1 (p : Pin) (h0 : 32 ≤ p) (h1 : p ≤ 63) :
    shl32 1 (Pin.uint8 p) = 0 := by
  interval_cases p <;> rfl

theorem getPinCfg_setPinCfg_low (p : Pin) (h0 : 0 ≤ p) (h1 : p ≤ 35) (v : Nat)
    (hv : v < 256) (s : Port) : (Pin.getPinCfg p (Pin.setPinCfg p v s)).1 = v := by
  have h2 : p ≤ 63 := le_trans h1 (by decide)
  rw [getPinCfg_eq_low p h0 h1, setPinCfg_eq p h0 h2]
  by_cases hp : p < 32
  · simp only [hp, if_true, Reg.Get_val, Reg.Set_regs, Function.update_same]
  · simp only [hp, if_false, Reg.GetByte_val, Reg.SetByte_regs, Function.update_same]
    exact getByte_insByte_same _ _ _ hv (pinCfgOff_le p)

theorem append_cons_ne_self {α : Type} (l : List α) (a : α) (m : List α) :
    l ++ a :: m ≠ l := by
  intro h
  have h2 := congrArg List.length h
  simp only [List.length_append, List.length_cons] at h2
  omega

theorem not_in_range_iff (p : Pin) : ¬ (0 ≤ p ∧ p ≤ 63) ↔ (p < 0 ∨ 63 < p) := by
  constructor
  · intro h
    by_cases h3 : 0 ≤ p
    · exact Or.inr (not_le.1 (fun h4 => h ⟨h3, h4⟩))
    · exact Or.inl (not_le.1 h3)
  · rintro (h | h) ⟨h3, h4⟩
    · exact absurd h3 (not_le.2 h)
    · exact absurd h4 (not_le.2 h)

theorem packed_accessors_default_iff (p : Pin) (hlo : -128 ≤ p) (hhi : p ≤ 255) (v : Nat)
    (s : Port) :
    (Pin.getPMux p s = (0, s) ↔ (p < 0 ∨ 63 < p)) ∧
    (Pin.setPMux p v s = s ↔ (p < 0 ∨ 63 < p)) ∧
    (Pin.setPinCfg p v s = s ↔ (p < 0 ∨ 63 < p)) := by
  refine ⟨⟨?_, fun h => getPMux_default p hlo hhi h s⟩,
    ⟨?_, fun h => setPMux_default p hlo hhi h v s⟩,
    ⟨?_, fun h => setPinCfg_default p hlo hhi h v s⟩⟩
  · intro h
    rw [← not_in_range_iff]
    rintro ⟨h0, h1⟩
    rw [getPMux_eq p h0 h1] at h
    have h2 := congrArg (fun x : Nat × Port => x.2.log) h
    by_cases hp : p < 32
    · simp only [hp, if_true, Reg.Get_log] at h2
      exact append_cons_ne_self _ _ _ h2
    · simp only [hp, if_false, Reg.GetByte, Reg.Get_log] at h2
      exact append_cons_ne_self _ _ _ h2
  · intro h
    rw [← not_in_range_iff]
    rintro ⟨h0, h1⟩
    rw [setPMux_eq p h0 h1] at h
    have h2 := congrArg Port.log h
    by_cases hp : p < 32
    · simp only [hp, if_true, Reg.Set_log] at h2
      exact append_cons_ne_self _ _ _ h2
    · simp only [hp, if_false, Reg.SetByte_log] at h2
      exact append_cons_ne_self _ _ _ h2
  · intro h
    rw [← not_in_range_iff]
    rintro ⟨h0, h1⟩
    rw [setPinCfg_eq p h0 h1] at h
    have h2 := congrArg Port.log h
    by_cases hp : p < 32
    · simp only [hp, if_true, Reg.Set_log] at h2
      exact append_cons_ne_self _ _ _ h2
    · simp only [hp, if_false, Reg.SetByte_log] at h2
      exact append_cons_ne_self _ _ _ h2

theorem xor_one_same_pair (p : Pin) (h0 : 0 ≤ p) (h1 : p ≤ 63) :
    0 ≤ Int.xor p 1 ∧ Int.xor p 1 ≤ 63 ∧ pmuxReg (Int.xor p 1) = pmuxReg p ∧
    pmuxOff (Int.xor p 1) = pmuxOff p ∧ (Int.xor p 1 < 32 ↔ p < 32) := by
  interval_cases p <;> decide

theorem xor_three_same_group (p : Pin) (h0 : 32 ≤ p) (h1 : p ≤ 63) :
    32 ≤ Int.xor p 3 ∧ Int.xor p 3 ≤ 63 ∧ Int.xor p 3 / 4 = p / 4 ∧
    Int.xor p 3 % 4 = 3 - p % 4 := by
  interval_cases p <;> decide

theorem pinCfgReg_same_group (p q : Pin) (h0 : 32 ≤ p) (g0 : 32 ≤ q) (h : q / 4 = p / 4) :
    pinCfgReg q = pinCfgReg p := by
  have a0 : @LE.le Int _ 32 p := h0
  have b0 : @LE.le Int _ 32 q := g0
  have e : @Eq Int (q / 4) (p / 4) := h
  have hp : ¬ p < 32 := not_lt.2 h0
  have hq : ¬ q < 32 := not_lt.2 g0
  unfold pinCfgReg
  simp only [hp, hq, if_false, Reg.PINCFG1.injEq]
  omega

theorem pinCfgReg_add_four_ne (p : Pin) (h0 : 32 ≤ p) : pinCfgReg (p + 4) ≠ pinCfgReg p := by
  have a0 : @LE.le Int _ 32 p := h0
  have hp : ¬ p < 32 := not_lt.2 h0
  have hq : ¬ p + 4 < 32 := by
    intro h
    have h2 : @LT.lt Int _ (p + 4) 32 := h
    omega
  unfold pinCfgReg
  simp only [hp, hq, if_false, Reg.PINCFG1.injEq, ne_eq]
  omega

/-! ## The properties -/

/-- C1: evaluation at the bank-1 pin 32. In each of the three input modes
`Configure` stores `0xFFFFFFE0` in `DIRCLR1`, the value of `1<<uint8(p) - 32`,
and not the single-bit mask `1 << (32 mod 32)`; the write is in the log. -/
theorem Configure_input_pin32_dirclr1 (c : Consts) (s : Port) :
    (Pin.Configure c 32 .PinInput s).regs .DIRCLR1 = 0xFFFFFFE0 ∧
    (Pin.Configure c 32 .PinInputPulldown s).regs .DIRCLR1 = 0xFFFFFFE0 ∧
    (Pin.Configure c 32 .PinInputPullup s).regs .DIRCLR1 = 0xFFFFFFE0 ∧
    Access.write .DIRCLR1 0xFFFFFFE0 ∈ (Pin.Configure c 32 .PinInput s).log ∧
    (0xFFFFFFE0 : Nat) ≠ 1 <<< bankBit 32 := by
  refine ⟨rfl, rfl, rfl, ?_, by decide⟩
  have h : (Pin.Configure c 32 .PinInput s).log =
      s.log ++ [Access.write .DIRCLR1 0xFFFFFFE0, Access.read (.PINCFG1 0),
        Access.write (.PINCFG1 0)
          (insByte (s.regs (.PINCFG1 0)) 0 c.PORT_PINCFG0_INEN)] := by
    simp [Pin.Configure, setPinCfg_log, pinCfgReg, pinCfgOff, sub32, shl32, Pin.uint8]
  rw [h]
  simp

/-- C2: evaluation at the bank-1 pin 32. In mode `PinInputPullup` `Configure`
stores `0xFFFFFFE0` in `OUTSET1`, and in mode `PinInputPulldown` it stores
`0xFFFFFFE0` in `OUTCLR1`, not the single-bit mask `1 << (32 mod 32)`. -/
theorem Configure_pull_pin32_out1 (c : Consts) (s : Port) :
    (Pin.Configure c 32 .PinInputPullup s).regs .OUTSET1 = 0xFFFFFFE0 ∧
    (Pin.Configure c 32 .PinInputPulldown s).regs .OUTCLR1 = 0xFFFFFFE0 ∧
    (0xFFFFFFE0 : Nat) ≠ 1 <<< bankBit 32 :=
  ⟨rfl, rfl, by decide⟩

/-- C3: for a pin in 0..63 and a peripheral mode (`PinSERCOM`, `PinSERCOMAlt`,
`PinCom`, `PinAnalog`) whose selector `S` is below 16, the multiplexer byte that
`getPMux` returns after `Configure` holds `S` in the pin's own nibble (the low
nibble for an even pin, the high nibble for an odd pin), and its other nibble,
that of pin `P xor 1`, equals that nibble of the byte `getPMux` returned before
the call. -/
theorem Configure_pmux_nibble (c : Consts) (p : Pin) (h0 : 0 ≤ p) (h1 : p ≤ 63)
    (m : PinMode) (S : Nat) (hm : c.selector m = some S) (hS : S < 16) (s : Port) :
    (p % 2 = 0 →
      (Pin.getPMux p (Pin.Configure c p m s)).1 % 16 = S ∧
      (Pin.getPMux p (Pin.Configure c p m s)).1 / 16 % 16 = (Pin.getPMux p s).1 / 16 % 16) ∧
    (p % 2 = 1 →
      (Pin.getPMux p (Pin.Configure c p m s)).1 / 16 % 16 = S ∧
      (Pin.getPMux p (Pin.Configure c p m s)).1 % 16 = (Pin.getPMux p s).1 % 16) := by
  obtain ⟨v, -, hcfg⟩ := Configure_peripheral c p m S hm s
  have hafter : (Pin.getPMux p (Pin.Configure c p m s)).1 =
      nibByte p (pmuxByte s.regs p) S := by
    rw [hcfg, getPMux_val p h0 h1, setPinCfg_regs p h0 h1, pmuxByte_update_cfg,
      muxWrite_regs p h0 h1]
    apply pmuxByte_store_same
    unfold nibByte
    split
    · exact oddByte_lt _ _
    · exact evenByte_lt _ _
  rw [hafter, getPMux_val p h0 h1]
  unfold nibByte
  constructor
  · intro hp
    have hp0 : @Eq Int (p % 2) 0 := hp
    have h2 : ¬ (p % 2 = 1) := by
      intro h3
      have h4 : @Eq Int (p % 2) 1 := h3
      omega
    simp only [h2, if_false]
    exact ⟨evenByte_lo _ _ hS, evenByte_hi _ _ hS⟩
  · intro hp
    simp only [hp, if_true]
    exact ⟨oddByte_hi _ _ hS, oddByte_lo _ _ hS⟩

/-- Witness for C3 at the odd pin 7 with selector 6, on a state whose
multiplexer byte of pins 6 and 7 is `0x5a`. -/
theorem Configure_pmux_nibble_witness :
    ((0 : Pin) ≤ 7 ∧ (7 : Pin) ≤ 63 ∧ samd51.selector .PinCom = some 6 ∧ (6 : Nat) < 16) ∧
    (((7 : Pin) % 2 = 0 →
      (Pin.getPMux 7 (Pin.Configure samd51 7 .PinCom Port.sample)).1 % 16 = 6 ∧
      (Pin.getPMux 7 (Pin.Configure samd51 7 .PinCom Port.sample)).1 / 16 % 16 =
        (Pin.getPMux 7 Port.sample).1 / 16 % 16) ∧
    ((7 : Pin) % 2 = 1 →
      (Pin.getPMux 7 (Pin.Configure samd51 7 .PinCom Port.sample)).1 / 16 % 16 = 6 ∧
      (Pin.getPMux 7 (Pin.Configure samd51 7 .PinCom Port.sample)).1 % 16 =
        (Pin.getPMux 7 Port.sample).1 % 16)) :=
  ⟨⟨by decide, by decide, rfl, by decide⟩,
    Configure_pmux_nibble samd51 7 (by decide) (by decide) .PinCom 6 rfl (by decide)
      Port.sample⟩

/-- C4: for a pin in 0..31 `PortMaskSet` returns the register `OUTSET0` and
`PortMaskClear` the register `OUTCLR0`, for a pin in 32..63 they return
`OUTSET1` and `OUTCLR1`, and the mask returned is `1 << (P mod 32)` in every
case: its only set bit is bit `P mod 32`. -/
theorem PortMask_bank_and_mask (p : Pin) (h0 : 0 ≤ p) (h1 : p ≤ 63) :
    Pin.PortMaskSet p = (if p < 32 then Reg.OUTSET0 else Reg.OUTSET1, 1 <<< bankBit p) ∧
    Pin.PortMaskClear p = (if p < 32 then Reg.OUTCLR0 else Reg.OUTCLR1, 1 <<< bankBit p) ∧
    (∀ i, ((Pin.PortMaskSet p).2).testBit i = decide (i = bankBit p)) ∧
    (∀ i, ((Pin.PortMaskClear p).2).testBit i = decide (i = bankBit p)) := by
  have hs : Pin.PortMaskSet p =
      (if p < 32 then Reg.OUTSET0 else Reg.OUTSET1, 1 <<< bankBit p) := by
    interval_cases p <;> rfl
  have hc : Pin.PortMaskClear p =
      (if p < 32 then Reg.OUTCLR0 else Reg.OUTCLR1, 1 <<< bankBit p) := by
    interval_cases p <;> rfl
  refine ⟨hs, hc, ?_, ?_⟩
  · intro i
    rw [hs]
    simp only [Nat.one_shiftLeft, Nat.testBit_two_pow]
    by_cases h : i = bankBit p <;> simp [h, eq_comm]
  · intro i
    rw [hc]
    simp only [Nat.one_shiftLeft, Nat.testBit_two_pow]
    by_cases h : i = bankBit p <;> simp [h, eq_comm]

/-- Witness for C4 at the bank-1 pin 37. -/
theorem PortMask_bank_and_mask_witness :
    ((0 : Pin) ≤ 37 ∧ (37 : Pin) ≤ 63) ∧
    Pin.PortMaskSet 37 = (if (37 : Pin) < 32 then Reg.OUTSET0 else Reg.OUTSET1, 1 <<< bankBit 37) ∧
    Pin.PortMaskClear 37 =
      (if (37 : Pin) < 32 then Reg.OUTCLR0 else Reg.OUTCLR1, 1 <<< bankBit 37) ∧
    (∀ i, ((Pin.PortMaskSet 37).2).testBit i = decide (i = bankBit 37)) ∧
    (∀ i, ((Pin.PortMaskClear 37).2).testBit i = decide (i = bankBit 37)) :=
  ⟨by decide, PortMask_bank_and_mask 37 (by decide) (by decide)⟩

/-- C5: for a pin in 0..63 and either level, `Set` makes exactly one register
access, a write of `1 << (P mod 32)` to the output-set register of the pin's
bank when `high` is true and to the output-clear register of that bank when it
is false; no other register changes its stored value. -/
theorem Set_single_write (p : Pin) (h0 : 0 ≤ p) (h1 : p ≤ 63) (high : Bool) (s : Port) :
    (Pin.Set p high s).log =
      s.log ++ [Access.write
        (if high then (if p < 32 then Reg.OUTSET0 else Reg.OUTSET1)
          else (if p < 32 then Reg.OUTCLR0 else Reg.OUTCLR1)) (1 <<< bankBit p)] ∧
    (Pin.Set p high s).regs =
      Function.update s.regs
        (if high then (if p < 32 then Reg.OUTSET0 else Reg.OUTSET1)
          else (if p < 32 then Reg.OUTCLR0 else Reg.OUTCLR1)) (1 <<< bankBit p) := by
  cases high <;> interval_cases p <;> exact ⟨rfl, rfl⟩

/-- Witness for C5 at the bank-1 pin 40, level high. -/
theorem Set_single_write_witness :
    ((0 : Pin) ≤ 40 ∧ (40 : Pin) ≤ 63) ∧
    (Pin.Set 40 true Port.sample).log =
      Port.sample.log ++ [Access.write
        (if true = true then (if (40 : Pin) < 32 then Reg.OUTSET0 else Reg.OUTSET1)
          else (if (40 : Pin) < 32 then Reg.OUTCLR0 else Reg.OUTCLR1)) (1 <<< bankBit 40)] ∧
    (Pin.Set 40 true Port.sample).regs =
      Function.update Port.sample.regs
        (if true = true then (if (40 : Pin) < 32 then Reg.OUTSET0 else Reg.OUTSET1)
          else (if (40 : Pin) < 32 then Reg.OUTCLR0 else Reg.OUTCLR1)) (1 <<< bankBit 40) :=
  ⟨by decide, Set_single_write 40 (by decide) (by decide) true Port.sample⟩

/-- C6: for a pin in 0..63 `Get` returns true exactly when bit `P mod 32` of
the input register of the pin's bank (`IN0` below 32, `IN1` from 32 on) is 1;
so two register states that agree on that one bit give the same result. -/
theorem Get_reads_bank_bit (p : Pin) (h0 : 0 ≤ p) (h1 : p ≤ 63) (s : Port) :
    ((Pin.Get p s).1 = true ↔
      (s.regs (if p < 32 then Reg.IN0 else Reg.IN1)).testBit (bankBit p) = true) ∧
    (∀ t : Port,
      (t.regs (if p < 32 then Reg.IN0 else Reg.IN1)).testBit (bankBit p) =
        (s.regs (if p < 32 then Reg.IN0 else Reg.IN1)).testBit (bankBit p) →
      (Pin.Get p t).1 = (Pin.Get p s).1) := by
  have key : ∀ u : Port, (Pin.Get p u).1 =
      (u.regs (if p < 32 then Reg.IN0 else Reg.IN1)).testBit (bankBit p) := by
    intro u
    rw [← testBit_eq_shift_and]
    interval_cases p <;> rfl
  refine ⟨by rw [key s], ?_⟩
  intro t ht
  rw [key t, key s, ht]

/-- Witness for C6 at the bank-1 pin 33. -/
theorem Get_reads_bank_bit_witness :
    ((0 : Pin) ≤ 33 ∧ (33 : Pin) ≤ 63) ∧
    ((Pin.Get 33 Port.sample).1 = true ↔
      (Port.sample.regs (if (33 : Pin) < 32 then Reg.IN0 else Reg.IN1)).testBit (bankBit 33)
        = true) ∧
    (∀ t : Port,
      (t.regs (if (33 : Pin) < 32 then Reg.IN0 else Reg.IN1)).testBit (bankBit 33) =
        (Port.sample.regs (if (33 : Pin) < 32 then Reg.IN0 else Reg.IN1)).testBit (bankBit 33) →
      (Pin.Get 33 t).1 = (Pin.Get 33 Port.sample).1) :=
  ⟨by decide, Get_reads_bank_bit 33 (by decide) (by decide) Port.sample⟩

/-- C7: for a pin in 0..63 `Configure` in mode `PinOutput` first writes the
mask `1 << (P mod 32)` to the direction-set register of the pin's bank
(`DIRSET0` below 32, `DIRSET1` from 32 on); every later access is a read or a
write of the pin's configuration register, at least one of them a write; the
pin's configuration byte afterwards has the input-enable bit set; and no write
goes to a direction-clear, output-set or output-clear register. -/
theorem Configure_output_sequence (c : Consts) (hc : c.IsByte) (p : Pin) (h0 : 0 ≤ p)
    (h1 : p ≤ 63) (s : Port) :
    ∃ rest : List Access,
      (Pin.Configure c p .PinOutput s).log =
        s.log ++
          Access.write (if p < 32 then Reg.DIRSET0 else Reg.DIRSET1) (1 <<< bankBit p) :: rest ∧
      (∀ a ∈ rest, a = Access.read (pinCfgReg p) ∨ ∃ v, a = Access.write (pinCfgReg p) v) ∧
      (∃ v, Access.write (pinCfgReg p) v ∈ rest) ∧
      pinCfgByte (Pin.Configure c p .PinOutput s).regs p &&& c.PORT_PINCFG0_INEN =
        c.PORT_PINCFG0_INEN ∧
      (∀ r v, Access.write r v ∈
          Access.write (if p < 32 then Reg.DIRSET0 else Reg.DIRSET1) (1 <<< bankBit p) :: rest →
        r ≠ .DIRCLR0 ∧ r ≠ .DIRCLR1 ∧ r ≠ .OUTSET0 ∧ r ≠ .OUTSET1 ∧
          r ≠ .OUTCLR0 ∧ r ≠ .OUTCLR1) := by
  have hmask : Pin.Configure c p .PinOutput s =
      Pin.setPinCfg p c.PORT_PINCFG0_INEN
        (Reg.Set (if p < 32 then Reg.DIRSET0 else Reg.DIRSET1) (1 <<< bankBit p) s) := by
    interval_cases p <;> rfl
  have hbyte : pinCfgByte (Pin.Configure c p .PinOutput s).regs p = c.PORT_PINCFG0_INEN := by
    rw [hmask, setPinCfg_regs p h0 h1]
    exact pinCfgByte_store_same _ _ _ hc.2.1
  by_cases hp : p < 32
  · refine ⟨[Access.write (pinCfgReg p) c.PORT_PINCFG0_INEN], ?_, ?_, ?_, ?_, ?_⟩
    · rw [hmask, setPinCfg_log p h0 h1]
      simp [hp]
    · intro a ha
      simp only [List.mem_singleton] at ha
      exact Or.inr ⟨_, ha⟩
    · exact ⟨_, List.mem_singleton.2 rfl⟩
    · rw [hbyte, Nat.and_self]
    · intro r v hr
      simp only [hp, if_true, List.mem_cons, Access.write.injEq, List.mem_singleton,
        List.not_mem_nil, or_false, pinCfgReg] at hr
      rcases hr with ⟨rfl, -⟩ | ⟨rfl, -⟩ <;> simp
  · refine ⟨[Access.read (pinCfgReg p), Access.write (pinCfgReg p)
        (insByte ((Reg.Set Reg.DIRSET1 (1 <<< bankBit p) s).regs (pinCfgReg p)) (pinCfgOff p)
          c.PORT_PINCFG0_INEN)], ?_, ?_, ?_, ?_, ?_⟩
    · rw [hmask, setPinCfg_log p h0 h1]
      simp [hp]
    · intro a ha
      simp only [List.mem_cons, List.mem_singleton, List.not_mem_nil, or_false] at ha
      rcases ha with ha | ha
      · exact Or.inl ha
      · exact Or.inr ⟨_, ha⟩
    · exact ⟨_, List.mem_cons_of_mem _ (List.mem_singleton.2 rfl)⟩
    · rw [hbyte, Nat.and_self]
    · intro r v hr
      simp only [hp, if_false, List.mem_cons, Access.write.injEq, List.mem_singleton,
        List.not_mem_nil, or_false, pinCfgReg, reduceCtorEq, false_or] at hr
      rcases hr with ⟨rfl, -⟩ | ⟨rfl, -⟩ <;> simp

/-- Witness for C7 at the bank-1 pin 35. -/
theorem Configure_output_sequence_witness :
    (samd51.IsByte ∧ (0 : Pin) ≤ 35 ∧ (35 : Pin) ≤ 63) ∧
    ∃ rest : List Access,
      (Pin.Configure samd51 35 .PinOutput Port.sample).log =
        Port.sample.log ++
          Access.write (if (35 : Pin) < 32 then Reg.DIRSET0 else Reg.DIRSET1)
            (1 <<< bankBit 35) :: rest ∧
      (∀ a ∈ rest, a = Access.read (pinCfgReg 35) ∨ ∃ v, a = Access.write (pinCfgReg 35) v) ∧
      (∃ v, Access.write (pinCfgReg 35) v ∈ rest) ∧
      pinCfgByte (Pin.Configure samd51 35 .PinOutput Port.sample).regs 35 &&&
          samd51.PORT_PINCFG0_INEN = samd51.PORT_PINCFG0_INEN ∧
      (∀ r v, Access.write r v ∈
          Access.write (if (35 : Pin) < 32 then Reg.DIRSET0 else Reg.DIRSET1)
            (1 <<< bankBit 35) :: rest →
        r ≠ .DIRCLR0 ∧ r ≠ .DIRCLR1 ∧ r ≠ .OUTSET0 ∧ r ≠ .OUTSET1 ∧
          r ≠ .OUTCLR0 ∧ r ≠ .OUTCLR1) :=
  ⟨by decide,
    Configure_output_sequence samd51 (by decide) 35 (by decide) (by decide) Port.sample⟩

/-- C8: for a pin in 0..63 and a handled mode, the pin's configuration byte
after `Configure` is the constant of the mode, whatever the registers held
before: `INEN` for `PinOutput` and `PinInput`, `INEN|PULLEN` for the two pull
modes, `PMUXEN|DRVSTR|INEN` for `PinSERCOM`, `PMUXEN|DRVSTR` for `PinSERCOMAlt`
and `PinAnalog`, `PMUXEN` for `PinCom`; and the bytes left by `PinSERCOM` and
by `PinSERCOMAlt` differ at most in bits of `INEN`. -/
theorem Configure_cfg_byte_const (c : Consts) (hc : c.IsByte) (p : Pin) (h0 : 0 ≤ p)
    (h1 : p ≤ 63) :
    (∀ (m : PinMode) (v : Nat), c.cfgByteOf m = some v →
      ∀ s : Port, pinCfgByte (Pin.Configure c p m s).regs p = v) ∧
    (∀ s t : Port,
      (pinCfgByte (Pin.Configure c p .PinSERCOM s).regs p ^^^
        pinCfgByte (Pin.Configure c p .PinSERCOMAlt t).regs p) &&& c.PORT_PINCFG0_INEN =
      pinCfgByte (Pin.Configure c p .PinSERCOM s).regs p ^^^
        pinCfgByte (Pin.Configure c p .PinSERCOMAlt t).regs p) := by
  have key : ∀ (m : PinMode) (v : Nat), c.cfgByteOf m = some v →
      ∀ s : Port, pinCfgByte (Pin.Configure c p m s).regs p = v := by
    intro m v hm s
    obtain ⟨t, ht⟩ := Configure_ends_in_setPinCfg c p m v hm s
    rw [ht, setPinCfg_regs p h0 h1]
    exact pinCfgByte_store_same _ _ _ (cfgByteOf_lt c hc m v hm)
  refine ⟨key, ?_⟩
  intro s t
  rw [key .PinSERCOM _ rfl s, key .PinSERCOMAlt _ rfl t]
  exact or_xor_and _ _

/-- Witness for C8 at the bank-1 pin 41 with the sample constants. -/
theorem Configure_cfg_byte_const_witness :
    (samd51.IsByte ∧ (0 : Pin) ≤ 41 ∧ (41 : Pin) ≤ 63) ∧
    ((∀ (m : PinMode) (v : Nat), samd51.cfgByteOf m = some v →
      ∀ s : Port, pinCfgByte (Pin.Configure samd51 41 m s).regs 41 = v) ∧
    (∀ s t : Port,
      (pinCfgByte (Pin.Configure samd51 41 .PinSERCOM s).regs 41 ^^^
        pinCfgByte (Pin.Configure samd51 41 .PinSERCOMAlt t).regs 41) &&&
          samd51.PORT_PINCFG0_INEN =
      pinCfgByte (Pin.Configure samd51 41 .PinSERCOM s).regs 41 ^^^
        pinCfgByte (Pin.Configure samd51 41 .PinSERCOMAlt t).regs 41)) :=
  ⟨by decide, Configure_cfg_byte_const samd51 (by decide) 41 (by decide) (by decide)⟩

/-- C9: for a pin in 0..63 and a byte `v`, `setPMux` changes no register other
than the multiplexer register of the pin pair; in bank 1 the bits of that
32-bit register outside the pair's byte keep their value; so `getPMux` of every
pin of another pair returns the same value before and after, also across a
`Configure` in a peripheral mode. -/
theorem setPMux_frame (p : Pin) (h0 : 0 ≤ p) (h1 : p ≤ 63) (v : Nat) (hv : v < 256)
    (s : Port) :
    (∀ r, r ≠ pmuxReg p → (Pin.setPMux p v s).regs r = s.regs r) ∧
    (32 ≤ p → ∀ i, ¬ (pmuxOff p ≤ i ∧ i < pmuxOff p + 8) →
      ((Pin.setPMux p v s).regs (pmuxReg p)).testBit i = (s.regs (pmuxReg p)).testBit i) ∧
    (∀ q : Pin, 0 ≤ q → q ≤ 63 → Pin.uint8 q >>> 1 ≠ Pin.uint8 p >>> 1 →
      (Pin.getPMux q (Pin.setPMux p v s)).1 = (Pin.getPMux q s).1) ∧
    (∀ (c : Consts) (m : PinMode) (S : Nat), c.selector m = some S →
      ∀ q : Pin, 0 ≤ q → q ≤ 63 → Pin.uint8 q >>> 1 ≠ Pin.uint8 p >>> 1 →
      (Pin.getPMux q (Pin.Configure c p m s)).1 = (Pin.getPMux q s).1) := by
  refine ⟨?_, ?_, ?_, ?_⟩
  · intro r hr
    rw [setPMux_regs p h0 h1, Function.update_noteq hr]
  · intro hp i hi
    have hp2 : ¬ p < 32 := not_lt.2 hp
    rw [setPMux_regs p h0 h1, Function.update_same]
    unfold pmuxStore
    simp only [hp2, if_false]
    rw [testBit_insByte _ _ _ _ hv (pmuxOff_le p)]
    simp only [hi, if_false]
  · intro q g0 g1 hne
    rw [getPMux_val q g0 g1, getPMux_val q g0 g1, setPMux_regs p h0 h1]
    exact pmuxByte_store_other _ p q h0 h1 g0 g1 v hv hne
  · intro c m S hm q g0 g1 hne
    obtain ⟨w, -, hcfg⟩ := Configure_peripheral c p m S hm s
    rw [hcfg, getPMux_val q g0 g1, getPMux_val q g0 g1, setPinCfg_regs p h0 h1,
      pmuxByte_update_cfg, muxWrite_regs p h0 h1]
    apply pmuxByte_store_other _ p q h0 h1 g0 g1 _ _ hne
    unfold nibByte
    split
    · exact oddByte_lt _ _
    · exact evenByte_lt _ _

/-- Witness for C9 at the bank-1 pin 45 and the byte `0xa5`. -/
theorem setPMux_frame_witness :
    ((0 : Pin) ≤ 45 ∧ (45 : Pin) ≤ 63 ∧ (0xa5 : Nat) < 256) ∧
    ((∀ r, r ≠ pmuxReg 45 → (Pin.setPMux 45 0xa5 Port.sample).regs r = Port.sample.regs r) ∧
    ((32 : Pin) ≤ 45 → ∀ i, ¬ (pmuxOff 45 ≤ i ∧ i < pmuxOff 45 + 8) →
      ((Pin.setPMux 45 0xa5 Port.sample).regs (pmuxReg 45)).testBit i =
        (Port.sample.regs (pmuxReg 45)).testBit i) ∧
    (∀ q : Pin, 0 ≤ q → q ≤ 63 → Pin.uint8 q >>> 1 ≠ Pin.uint8 45 >>> 1 →
      (Pin.getPMux q (Pin.setPMux 45 0xa5 Port.sample)).1 = (Pin.getPMux q Port.sample).1) ∧
    (∀ (c : Consts) (m : PinMode) (S : Nat), c.selector m = some S →
      ∀ q : Pin, 0 ≤ q → q ≤ 63 → Pin.uint8 q >>> 1 ≠ Pin.uint8 45 >>> 1 →
      (Pin.getPMux q (Pin.Configure c 45 m Port.sample)).1 = (Pin.getPMux q Port.sample).1)) :=
  ⟨by decide, setPMux_frame 45 (by decide) (by decide) 0xa5 (by decide) Port.sample⟩

/-- C10: `Configure` is idempotent on the stored register values: for every
8-bit pin index, every mode and every register state, the registers after two
successive calls `Configure(P, M)` equal the registers after one. -/
theorem Configure_idempotent (c : Consts) (p : Pin) (hlo : -128 ≤ p) (hhi : p ≤ 255)
    (m : PinMode) (s : Port) :
    (Pin.Configure c p m (Pin.Configure c p m s)).regs = (Pin.Configure c p m s).regs := by
  obtain ⟨d1, d2, d3, d4, d5, d6, d7, d8⟩ := pinCfgReg_ne_bank p
  have hk : ∀ v : Nat, ∀ x, (fun _ : Nat => v) ((fun _ : Nat => v) x) = (fun _ : Nat => v) x :=
    fun _ _ => rfl
  cases m with
  | PinOutput =>
    unfold Pin.Configure
    by_cases h : p < 32 <;> simp only [h, if_true, if_false] <;>
      simp only [setPinCfg_upd p hlo hhi, Reg.Set_upd]
    · exact upd2_idem _ _ _ _ _ d1 (hk _) (cfgFun_idem p _)
    · exact upd2_idem _ _ _ _ _ d2 (hk _) (cfgFun_idem p _)
  | PinInput =>
    unfold Pin.Configure
    by_cases h : p < 32 <;> simp only [h, if_true, if_false] <;>
      simp only [setPinCfg_upd p hlo hhi, Reg.Set_upd]
    · exact upd2_idem _ _ _ _ _ d3 (hk _) (cfgFun_idem p _)
    · exact upd2_idem _ _ _ _ _ d4 (hk _) (cfgFun_idem p _)
  | PinInputPulldown =>
    unfold Pin.Configure
    by_cases h : p < 32 <;> simp only [h, if_true, if_false] <;>
      simp only [setPinCfg_upd p hlo hhi, Reg.Set_upd]
    · exact upd3_idem _ _ _ _ _ _ _ (by decide) d3 d7 (hk _) (hk _) (cfgFun_idem p _)
    · exact upd3_idem _ _ _ _ _ _ _ (by decide) d4 d8 (hk _) (hk _) (cfgFun_idem p _)
  | PinInputPullup =>
    unfold Pin.Configure
    by_cases h : p < 32 <;> simp only [h, if_true, if_false] <;>
      simp only [setPinCfg_upd p hlo hhi, Reg.Set_upd]
    · exact upd3_idem _ _ _ _ _ _ _ (by decide) d3 d5 (hk _) (hk _) (cfgFun_idem p _)
    · exact upd3_idem _ _ _ _ _ _ _ (by decide) d4 d6 (hk _) (hk _) (cfgFun_idem p _)
  | PinSERCOM => exact periph_idem p hlo hhi _ _ s
  | PinSERCOMAlt => exact periph_idem p hlo hhi _ _ s
  | PinCom => exact periph_idem p hlo hhi _ _ s
  | PinAnalog => exact periph_idem p hlo hhi _ _ s
  | other n => rfl

/-- Witness for C10 at the bank-1 pin 38 in mode `PinInputPullup`. -/
theorem Configure_idempotent_witness :
    ((-128 : Pin) ≤ 38 ∧ (38 : Pin) ≤ 255) ∧
    (Pin.Configure samd51 38 .PinInputPullup
        (Pin.Configure samd51 38 .PinInputPullup Port.sample)).regs =
      (Pin.Configure samd51 38 .PinInputPullup Port.sample).regs :=
  ⟨by decide,
    Configure_idempotent samd51 38 (by decide) (by decide) .PinInputPullup Port.sample⟩

/-- C11: for a pin in 32..63 and a byte `v`, `setPinCfg` reads and writes the
one register `PINCFG1_k` with `k = 4 * ((P - 32) div 4)`; afterwards bits
`(P mod 4)*8 .. (P mod 4)*8 + 7` of it are the bits of `v`, every other bit of
it and every other register is unchanged; `setPinCfg` of `P + 4` never writes
that register, while every pin of the same group of four (`P xor 3` is one)
writes only that register, at its own offset `(pin mod 4) * 8`. For a pin in
0..31 the single access is the write of `v` to `PINCFG0_P`, and nothing else
changes. -/
theorem setPinCfg_resolves (p : Pin) (h0 : 0 ≤ p) (h1 : p ≤ 63) (v : Nat) (hv : v < 256)
    (s : Port) :
    (p < 32 →
      Port.newLog s (Pin.setPinCfg p v s) = [Access.write (.PINCFG0 p.toNat) v] ∧
      (Pin.setPinCfg p v s).regs = Function.update s.regs (.PINCFG0 p.toNat) v) ∧
    (32 ≤ p →
      pinCfgReg p = .PINCFG1 (4 * ((p.toNat - 32) / 4)) ∧ pinCfgOff p = p.toNat % 4 * 8 ∧
      Port.newLog s (Pin.setPinCfg p v s) =
        [Access.read (pinCfgReg p),
          Access.write (pinCfgReg p) ((Pin.setPinCfg p v s).regs (pinCfgReg p))] ∧
      (∀ r, r ≠ pinCfgReg p → (Pin.setPinCfg p v s).regs r = s.regs r) ∧
      (∀ i, ((Pin.setPinCfg p v s).regs (pinCfgReg p)).testBit i =
        if pinCfgOff p ≤ i ∧ i < pinCfgOff p + 8 then v.testBit (i - pinCfgOff p)
        else (s.regs (pinCfgReg p)).testBit i) ∧
      (∀ (w : Nat) (t : Port) (x : Nat),
        Access.write (pinCfgReg p) x ∉ Port.newLog t (Pin.setPinCfg (p + 4) w t)) ∧
      (∀ q : Pin, 32 ≤ q → q ≤ 63 → q / 4 = p / 4 →
        pinCfgReg q = pinCfgReg p ∧ pinCfgOff q = q.toNat % 4 * 8 ∧
        ∀ (w : Nat) (t : Port) (r : Reg), r ≠ pinCfgReg p →
          (Pin.setPinCfg q w t).regs r = t.regs r) ∧
      (32 ≤ Int.xor p 3 ∧ Int.xor p 3 ≤ 63 ∧ Int.xor p 3 / 4 = p / 4 ∧
        Int.xor p 3 % 4 = 3 - p % 4)) := by
  constructor
  · intro hp
    have e : pinCfgReg p = .PINCFG0 p.toNat := by
      unfold pinCfgReg
      simp only [hp, if_true]
    constructor
    · rw [setPinCfg_newLog p h0 h1, e]
      simp only [hp, if_true]
    · rw [setPinCfg_regs p h0 h1, e]
      unfold pinCfgStore
      simp only [hp, if_true]
  · intro hp
    have hlt : ¬ p < 32 := not_lt.2 hp
    have hreg : (Pin.setPinCfg p v s).regs (pinCfgReg p) =
        insByte (s.regs (pinCfgReg p)) (pinCfgOff p) v := by
      rw [setPinCfg_regs p h0 h1, Function.update_same]
      unfold pinCfgStore
      simp only [hlt, if_false]
    refine ⟨?_, rfl, ?_, ?_, ?_, ?_, ?_, xor_three_same_group p hp h1⟩
    · unfold pinCfgReg
      simp only [hlt, if_false]
    · rw [setPinCfg_newLog p h0 h1, hreg]
      simp only [hlt, if_false]
    · intro r hr
      rw [setPinCfg_regs p h0 h1, Function.update_noteq hr]
    · intro i
      rw [hreg, testBit_insByte _ _ _ _ hv (pinCfgOff_le p)]
    · intro w t x hx
      by_cases h4 : p + 4 ≤ 63
      · have g0 : (0 : Pin) ≤ p + 4 := by
          have a0 : @LE.le Int _ 0 p := h0
          show @LE.le Int _ 0 (p + 4)
          omega
        have g2 : ¬ p + 4 < 32 := by
          intro h
          have a0 : @LE.le Int _ 32 p := hp
          have h2 : @LT.lt Int _ (p + 4) 32 := h
          omega
        rw [setPinCfg_newLog (p + 4) g0 h4] at hx
        simp only [g2, if_false, List.mem_cons, Access.write.injEq, List.mem_singleton,
          List.not_mem_nil, or_false, reduceCtorEq, false_or] at hx
        exact pinCfgReg_add_four_ne p hp hx.1.symm
      · have hlo : (-128 : Pin) ≤ p + 4 := by
          have a0 : @LE.le Int _ 0 p := h0
          show @LE.le Int _ (-128) (p + 4)
          omega
        have hhi : p + 4 ≤ 255 := by
          have a1 : @LE.le Int _ p 63 := h1
          show @LE.le Int _ (p + 4) 255
          omega
        rw [setPinCfg_default (p + 4) hlo hhi (Or.inr (not_le.1 h4))] at hx
        unfold Port.newLog at hx
        rw [List.drop_length] at hx
        exact List.not_mem_nil _ hx
    · intro q g0 g1 hq
      have e : pinCfgReg q = pinCfgReg p := pinCfgReg_same_group p q hp g0 hq
      refine ⟨e, rfl, ?_⟩
      intro w t r hr
      have gq : (0 : Pin) ≤ q := le_trans (by decide) g0
      rw [setPinCfg_regs q gq g1, e, Function.update_noteq hr]

/-- Witness for C11 at pin 45: register `PINCFG1_12`, byte offset 8. -/
theorem setPinCfg_resolves_witness :
    ((0 : Pin) ≤ 45 ∧ (45 : Pin) ≤ 63 ∧ (0x43 : Nat) < 256) ∧
    (((45 : Pin) < 32 →
      Port.newLog Port.sample (Pin.setPinCfg 45 0x43 Port.sample) =
        [Access.write (.PINCFG0 (45 : Pin).toNat) 0x43] ∧
      (Pin.setPinCfg 45 0x43 Port.sample).regs =
        Function.update Port.sample.regs (.PINCFG0 (45 : Pin).toNat) 0x43) ∧
    ((32 : Pin) ≤ 45 →
      pinCfgReg 45 = .PINCFG1 (4 * (((45 : Pin).toNat - 32) / 4)) ∧
      pinCfgOff 45 = (45 : Pin).toNat % 4 * 8 ∧
      Port.newLog Port.sample (Pin.setPinCfg 45 0x43 Port.sample) =
        [Access.read (pinCfgReg 45),
          Access.write (pinCfgReg 45) ((Pin.setPinCfg 45 0x43 Port.sample).regs (pinCfgReg 45))] ∧
      (∀ r, r ≠ pinCfgReg 45 →
        (Pin.setPinCfg 45 0x43 Port.sample).regs r = Port.sample.regs r) ∧
      (∀ i, ((Pin.setPinCfg 45 0x43 Port.sample).regs (pinCfgReg 45)).testBit i =
        if pinCfgOff 45 ≤ i ∧ i < pinCfgOff 45 + 8 then (0x43 : Nat).testBit (i - pinCfgOff 45)
        else (Port.sample.regs (pinCfgReg 45)).testBit i) ∧
      (∀ (w : Nat) (t : Port) (x : Nat),
        Access.write (pinCfgReg 45) x ∉ Port.newLog t (Pin.setPinCfg (45 + 4) w t)) ∧
      (∀ q : Pin, 32 ≤ q → q ≤ 63 → q / 4 = 45 / 4 →
        pinCfgReg q = pinCfgReg 45 ∧ pinCfgOff q = q.toNat % 4 * 8 ∧
        ∀ (w : Nat) (t : Port) (r : Reg), r ≠ pinCfgReg 45 →
          (Pin.setPinCfg q w t).regs r = t.regs r) ∧
      (32 ≤ Int.xor 45 3 ∧ Int.xor 45 3 ≤ 63 ∧ Int.xor 45 3 / 4 = 45 / 4 ∧
        Int.xor 45 3 % 4 = 3 - 45 % 4))) :=
  ⟨by decide, setPinCfg_resolves 45 (by decide) (by decide) 0x43 (by decide) Port.sample⟩

/-- C12: evaluation at pin 36. After `setPinCfg(1)` the call `getPinCfg()`
returns 0, not the byte just written: `getPinCfg` has no case 36. At pin 37
it returns the byte of pin 36, not the byte written for pin 37. -/
theorem getPinCfg_setPinCfg_pin36 (s : Port) :
    (Pin.getPinCfg 36 (Pin.setPinCfg 36 1 s)).1 = 0 ∧
    (Pin.getPinCfg 37 (Pin.setPinCfg 37 1 s)).1 = getByte (s.regs (.PINCFG1 4)) 0 ∧
    (Pin.getPinCfg 37 (Pin.setPinCfg 37 1 Port.sample)).1 = 0 := by
  refine ⟨rfl, ?_, by decide⟩
  rw [getPinCfg_eq_shifted 37 (by decide) (by decide), setPinCfg_eq 37 (by decide) (by decide)]
  have e36 : pinCfgReg (37 - 1) = Reg.PINCFG1 4 := by decide
  have e37 : pinCfgReg 37 = Reg.PINCFG1 4 := by decide
  have o36 : pinCfgOff (37 - 1) = 0 := by decide
  have o37 : pinCfgOff 37 = 8 := by decide
  have hlt : ¬ ((37 : Pin) < 32) := by decide
  simp only [hlt, if_false, e36, e37, o36, o37, Reg.GetByte_val, Reg.SetByte_regs,
    Function.update_same]
  exact getByte_insByte_other _ 8 0 1 (by decide) (by decide) (Or.inl (by decide))

/-- C13: evaluation of `getPinCfg` at the two indices where it departs from the
other three accessors. At the valid pin 36 it takes the default branch: it
returns 0 and makes no access. At the invalid index 64 it does not take the
default branch: it reads `PINCFG1_28` and returns its top byte. -/
theorem getPinCfg_default_at_36_not_at_64 (s : Port) :
    Pin.getPinCfg 36 s = (0, s) ∧
    Pin.getPinCfg 64 s = Reg.GetByte (.PINCFG1 28) 24 s ∧
    (Pin.getPinCfg 64 s).2.log = s.log ++ [Access.read (.PINCFG1 28)] :=
  ⟨rfl, rfl, rfl⟩

/-- C14: for a pin in 0..63 and a byte `v`, `getPMux` after `setPMux(v)` on
the same pin returns `v`, and so does `getPMux` of the pin `P xor 1`, which
shares the byte. -/
theorem getPMux_setPMux_roundtrip (p : Pin) (h0 : 0 ≤ p) (h1 : p ≤ 63) (v : Nat)
    (hv : v < 256) (s : Port) :
    (Pin.getPMux p (Pin.setPMux p v s)).1 = v ∧
    (Pin.getPMux (Int.xor p 1) (Pin.setPMux p v s)).1 = v := by
  obtain ⟨x0, x1, xr, xo, xb⟩ := xor_one_same_pair p h0 h1
  have key : pmuxByte (Pin.setPMux p v s).regs p = v := by
    rw [setPMux_regs p h0 h1]
    exact pmuxByte_store_same _ _ _ hv
  constructor
  · rw [getPMux_val p h0 h1]
    exact key
  · rw [getPMux_val _ x0 x1]
    have e : pmuxByte (Pin.setPMux p v s).regs (Int.xor p 1) =
        pmuxByte (Pin.setPMux p v s).regs p := by
      unfold pmuxByte
      rw [xr, xo]
      by_cases hp : p < 32
      · simp only [hp, xb.2 hp, if_true]
      · have hx : ¬ Int.xor p 1 < 32 := fun h => hp (xb.1 h)
        simp only [hp, hx, if_false]
    rw [e]
    exact key

/-- Witness for C14 at the even bank-1 pin 44 (its pair is 44, 45). -/
theorem getPMux_setPMux_roundtrip_witness :
    ((0 : Pin) ≤ 44 ∧ (44 : Pin) ≤ 63 ∧ (0xa5 : Nat) < 256) ∧
    ((Pin.getPMux 44 (Pin.setPMux 44 0xa5 Port.sample)).1 = 0xa5 ∧
    (Pin.getPMux (Int.xor 44 1) (Pin.setPMux 44 0xa5 Port.sample)).1 = 0xa5) :=
  ⟨by decide, getPMux_setPMux_roundtrip 44 (by decide) (by decide) 0xa5 (by decide) Port.sample⟩

/-- C15: for a pin in 32..63 the shift `1 << uint8(p)` on `uint32` is 0 and
`1<<uint8(p) - 32` is `0xFFFFFFE0`; so in modes `PinInput`, `PinInputPulldown`
and `PinInputPullup` `Configure` writes `0xFFFFFFE0` to `DIRCLR1`, and also to
`OUTCLR1` (pull-down) and to `OUTSET1` (pull-up), whatever the pin; these are
the first accesses of the call, and the registers hold that value afterwards. -/
theorem Configure_bank1_input_masks (c : Consts) (p : Pin) (h0 : 32 ≤ p) (h1 : p ≤ 63)
    (s : Port) :
    sub32 (shl32 1 (Pin.uint8 p)) 32 = 0xFFFFFFE0 ∧
    Pin.Configure c p .PinInput s =
      Pin.setPinCfg p c.PORT_PINCFG0_INEN (Reg.Set .DIRCLR1 0xFFFFFFE0 s) ∧
    Pin.Configure c p .PinInputPulldown s =
      Pin.setPinCfg p (c.PORT_PINCFG0_INEN ||| c.PORT_PINCFG0_PULLEN)
        (Reg.Set .OUTCLR1 0xFFFFFFE0 (Reg.Set .DIRCLR1 0xFFFFFFE0 s)) ∧
    Pin.Configure c p .PinInputPullup s =
      Pin.setPinCfg p (c.PORT_PINCFG0_INEN ||| c.PORT_PINCFG0_PULLEN)
        (Reg.Set .OUTSET1 0xFFFFFFE0 (Reg.Set .DIRCLR1 0xFFFFFFE0 s)) ∧
    (Pin.Configure c p .PinInput s).regs .DIRCLR1 = 0xFFFFFFE0 ∧
    (Pin.Configure c p .PinInputPulldown s).regs .DIRCLR1 = 0xFFFFFFE0 ∧
    (Pin.Configure c p .PinInputPulldown s).regs .OUTCLR1 = 0xFFFFFFE0 ∧
    (Pin.Configure c p .PinInputPullup s).regs .DIRCLR1 = 0xFFFFFFE0 ∧
    (Pin.Configure c p .PinInputPullup s).regs .OUTSET1 = 0xFFFFFFE0 := by
  have hp : ¬ p < 32 := not_lt.2 h0
  have hv : sub32 (shl32 1 (Pin.uint8 p)) 32 = 0xFFFFFFE0 := by
    rw [shl32_one_bank1 p h0 h1]
    rfl
  have g0 : (0 : Pin) ≤ p := le_trans (by decide) h0
  obtain ⟨d1, d2, d3, d4, d5, d6, d7, d8⟩ := pinCfgReg_ne_bank p
  have e1 : Pin.Configure c p .PinInput s =
      Pin.setPinCfg p c.PORT_PINCFG0_INEN (Reg.Set .DIRCLR1 0xFFFFFFE0 s) := by
    unfold Pin.Configure
    simp only [hp, if_false, hv]
  have e2 : Pin.Configure c p .PinInputPulldown s =
      Pin.setPinCfg p (c.PORT_PINCFG0_INEN ||| c.PORT_PINCFG0_PULLEN)
        (Reg.Set .OUTCLR1 0xFFFFFFE0 (Reg.Set .DIRCLR1 0xFFFFFFE0 s)) := by
    unfold Pin.Configure
    simp only [hp, if_false, hv]
  have e3 : Pin.Configure c p .PinInputPullup s =
      Pin.setPinCfg p (c.PORT_PINCFG0_INEN ||| c.PORT_PINCFG0_PULLEN)
        (Reg.Set .OUTSET1 0xFFFFFFE0 (Reg.Set .DIRCLR1 0xFFFFFFE0 s)) := by
    unfold Pin.Configure
    simp only [hp, if_false, hv]
  refine ⟨hv, e1, e2, e3, ?_, ?_, ?_, ?_, ?_⟩
  · rw [e1, setPinCfg_regs p g0 h1, Function.update_noteq d4, Reg.Set_regs,
      Function.update_same]
  · rw [e2, setPinCfg_regs p g0 h1, Function.update_noteq d4, Reg.Set_regs,
      Function.update_noteq (by decide), Reg.Set_regs, Function.update_same]
  · rw [e2, setPinCfg_regs p g0 h1, Function.update_noteq d8, Reg.Set_regs,
      Function.update_same]
  · rw [e3, setPinCfg_regs p g0 h1, Function.update_noteq d4, Reg.Set_regs,
      Function.update_noteq (by decide), Reg.Set_regs, Function.update_same]
  · rw [e3, setPinCfg_regs p g0 h1, Function.update_noteq d6, Reg.Set_regs,
      Function.update_same]

/-- Witness for C15 at pin 47. -/
theorem Configure_bank1_input_masks_witness :
    ((32 : Pin) ≤ 47 ∧ (47 : Pin) ≤ 63) ∧
    (sub32 (shl32 1 (Pin.uint8 47)) 32 = 0xFFFFFFE0 ∧
    Pin.Configure samd51 47 .PinInput Port.sample =
      Pin.setPinCfg 47 samd51.PORT_PINCFG0_INEN (Reg.Set .DIRCLR1 0xFFFFFFE0 Port.sample) ∧
    Pin.Configure samd51 47 .PinInputPulldown Port.sample =
      Pin.setPinCfg 47 (samd51.PORT_PINCFG0_INEN ||| samd51.PORT_PINCFG0_PULLEN)
        (Reg.Set .OUTCLR1 0xFFFFFFE0 (Reg.Set .DIRCLR1 0xFFFFFFE0 Port.sample)) ∧
    Pin.Configure samd51 47 .PinInputPullup Port.sample =
      Pin.setPinCfg 47 (samd51.PORT_PINCFG0_INEN ||| samd51.PORT_PINCFG0_PULLEN)
        (Reg.Set .OUTSET1 0xFFFFFFE0 (Reg.Set .DIRCLR1 0xFFFFFFE0 Port.sample)) ∧
    (Pin.Configure samd51 47 .PinInput Port.sample).regs .DIRCLR1 = 0xFFFFFFE0 ∧
    (Pin.Configure samd51 47 .PinInputPulldown Port.sample).regs .DIRCLR1 = 0xFFFFFFE0 ∧
    (Pin.Configure samd51 47 .PinInputPulldown Port.sample).regs .OUTCLR1 = 0xFFFFFFE0 ∧
    (Pin.Configure samd51 47 .PinInputPullup Port.sample).regs .DIRCLR1 = 0xFFFFFFE0 ∧
    (Pin.Configure samd51 47 .PinInputPullup Port.sample).regs .OUTSET1 = 0xFFFFFFE0) :=
  ⟨by decide, Configure_bank1_input_masks samd51 47 (by decide) (by decide) Port.sample⟩

/-- C16: storing the mask returned by `PortMaskSet` in the register it returns
gives the same state as `Set(true)`, and storing the mask returned by
`PortMaskClear` in the register it returns gives the same state as
`Set(false)`, for every pin index and register state. -/
theorem PortMask_store_eq_Set (p : Pin) (s : Port) :
    Reg.Set (Pin.PortMaskSet p).1 (Pin.PortMaskSet p).2 s = Pin.Set p true s ∧
    Reg.Set (Pin.PortMaskClear p).1 (Pin.PortMaskClear p).2 s = Pin.Set p false s := by
  unfold Pin.PortMaskSet Pin.PortMaskClear Pin.Set
  by_cases h : p < 32 <;> simp [h]

/-- C17: `Configure` with a mode other than the eight that have a case returns
the state it was given: no access is logged and no register changes. -/
theorem Configure_other_mode_noop (c : Consts) (p : Pin) (n : Nat) (s : Port) :
    Pin.Configure c p (.other n) s = s ∧
    (Pin.Configure c p (.other n) s).log = s.log ∧
    (Pin.Configure c p (.other n) s).regs = s.regs ∧
    Port.newLog s (Pin.Configure c p (.other n) s) = [] := by
  refine ⟨rfl, rfl, rfl, ?_⟩
  show List.drop s.log.length s.log = []
  exact List.drop_length _

/-- C18: for an index in 37..64 `getPinCfg` reads the byte slot that
`setPinCfg` writes for the index one below: after `(P-1).setPinCfg(v)` with a
byte `v`, `P.getPinCfg()` returns `v`; and `36.getPinCfg()` returns 0 in every
register state. -/
theorem getPinCfg_shifted_by_one (p : Pin) (h0 : 37 ≤ p) (h1 : p ≤ 64) (v : Nat)
    (hv : v < 256) (s : Port) :
    (Pin.getPinCfg p (Pin.setPinCfg (p - 1) v s)).1 = v ∧
    (∀ t : Port, (Pin.getPinCfg 36 t).1 = 0) := by
  refine ⟨?_, fun _ => rfl⟩
  have a0 : @LE.le Int _ 37 p := h0
  have a1 : @LE.le Int _ p 64 := h1
  have g0 : (0 : Pin) ≤ p - 1 := by
    show @LE.le Int _ 0 (p - 1)
    omega
  have g1 : p - 1 ≤ 63 := by
    show @LE.le Int _ (p - 1) 63
    omega
  have g2 : ¬ (p - 1 < 32) := by
    intro h
    have h2 : @LT.lt Int _ (p - 1) 32 := h
    omega
  rw [getPinCfg_eq_shifted p h0 h1, setPinCfg_eq (p - 1) g0 g1]
  simp only [g2, if_false, Reg.GetByte_val, Reg.SetByte_regs, Function.update_same]
  exact getByte_insByte_same _ _ _ hv (pinCfgOff_le _)

/-- Witness for C18 at index 64, which reads the slot of pin 63. -/
theorem getPinCfg_shifted_by_one_witness :
    ((37 : Pin) ≤ 64 ∧ (64 : Pin) ≤ 64 ∧ (0x43 : Nat) < 256) ∧
    ((Pin.getPinCfg 64 (Pin.setPinCfg (64 - 1) 0x43 Port.sample)).1 = 0x43 ∧
    (∀ t : Port, (Pin.getPinCfg 36 t).1 = 0)) :=
  ⟨by decide, getPinCfg_shifted_by_one 64 (by decide) (by decide) 0x43 (by decide) Port.sample⟩

end Machine
